import Mathlib

/-!
Verification of kv_engine: audit fill queue and bucket create/remove command context

A shallow embedding of

* `Audit::add_to_filleventqueue`, `Audit::add_reconfigure_event`,
  `Audit::clear_events_map`, `Audit::clear_events_queues`,
  `Audit::terminate_consumer_thread`, `Audit::clean_up` and
  `Audit::initialize_event_data_structures` (auditd/src/audit.cc);
* `CreateRemoveBucketCommandContext` (daemon/protocol/mcbp/
  create_remove_bucket_command_context.cc);
* `dcp_buffer_acknowledgement_executor` (daemon/protocol/mcbp/
  dcp_buffer_acknowledgement_executor.cc);
* the `maxExpectedDuration()` members of engines/ep/src/tasks.h;
* `TapConnection` and, of `EventuallyPersistentEngine`, `get`, `store`,
  `addMutationEvent` and `notifyTapQueues` (ep_engine.h);
* the class `TaggedPtr` as engines/ep/tests/module_tests/tagged_ptr_test.cc
  uses it, and the task queue of the worker pool as the specification
  describes it.

Conventions.  A `std::queue<Event*>` is a list read front to back:
`push` appends at the tail, `front` is the head, `pop` drops the head.
Byte strings are lists of byte values, `0` being the NUL byte.  Mutexes and
condition variables guard the state but carry none of their own, so a call
made under the lock is one atomic transition of the state.
-/

/-- A byte string (`std::string`, or a `const char*` with a length). -/
abbrev Bytes := List Nat

namespace Auditd

/-- What the fill queue holds: `Event(event_id, payload, length)` objects and
`ConfigureEvent(configfile, cookie)` objects (a subclass of `Event`). -/
inductive Event where
  | event (id : Nat) (payload : Bytes)
  | configure (configfile : Bytes) (cookie : Nat)
deriving DecidableEq, Repr

/-- The error codes `Audit::log_error` is called with in the functions
embedded here; `other` stands for every further value of the enumeration. -/
inductive AuditErrorCode where
  | JSON_MISSING_DATA_ERROR
  | MEMORY_ALLOCATION_ERROR
  | JSON_KEY_ERROR
  | other (code : Nat)
deriving DecidableEq, Repr

/-- Lines handed to `logger->log`: the warning of a dropped event, and the
line `Audit::log_error(return_code, string)` writes. -/
inductive LogLine where
  | dropping (id : Nat) (payload : Bytes)
  | error (return_code : AuditErrorCode) (string : Bytes)
deriving DecidableEq, Repr

/-- Modelled from the spec: the type of the member `dropped_events`, whose
declaration (audit.h) is not among the sources at hand.  The spec calls it "a
dropped-event counter"; it is a count that `++` increases by one. -/
abbrev DroppedEventCounter := Nat

/-- An entry of the `events` map, with the members `audit.cc` reaches through
`getId`, `getName`, `getDescription`, `setSync` and `isEnabled`/`setEnabled`
(the class is declared in eventdescriptor.h, outside the sources at hand). -/
structure EventDescriptor where
  id : Nat
  name : Bytes
  description : Bytes
  sync : Bool
  enabled : Bool
deriving DecidableEq, Repr

/-- The members of `Audit` that the producers, the shutdown path and the
clean-up read and write; `logged` are the lines handed to the logger, oldest
first, and `events` is the map from event id to descriptor, as the list of its
entries. -/
structure Audit where
  filleventqueue : List Event
  processeventqueue : List Event
  max_audit_queue : Nat
  dropped_events : DroppedEventCounter
  logged : List LogLine
  events : List (Nat × EventDescriptor)
  terminate_audit_daemon : Bool
  consumer_thread_running : Bool
  consumer_tid : Nat
deriving DecidableEq, Repr

/-- An audit object with both queues empty, nothing dropped, no event
descriptors, no consumer thread and the termination flag unset. -/
def Audit.fresh (max_audit_queue : Nat) : Audit :=
  { filleventqueue := [], processeventqueue := [],
    max_audit_queue := max_audit_queue, dropped_events := 0, logged := [],
    events := [], terminate_audit_daemon := false,
    consumer_thread_running := false, consumer_tid := 0 }

/-- The constructor `Event(event_id, payload, length)`: the payload string is
built from the first `length` bytes at `payload`. -/
def Event.new (event_id : Nat) (payload : Bytes) (length : Nat) : Event :=
  Event.event event_id (payload.take length)

/-- The member function `Audit::add_to_filleventqueue` (audit.cc:442-467):
the state afterwards and the value returned. -/
def Audit.add_to_filleventqueue (a : Audit) (event_id : Nat) (payload : Bytes)
    (length : Nat) : Audit × Bool :=
  let new_event := Event.new event_id payload length
  if a.filleventqueue.length < a.max_audit_queue then
    ({ a with filleventqueue := a.filleventqueue ++ [new_event] }, true)
  else
    ({ a with
        logged := a.logged ++ [LogLine.dropping event_id (payload.take length)],
        dropped_events := a.dropped_events + 1 }, false)

/-- The member function `Audit::add_reconfigure_event` (audit.cc:470-477):
the state afterwards and the value returned. -/
def Audit.add_reconfigure_event (a : Audit) (configfile : Bytes) (cookie : Nat) :
    Audit × Bool :=
  let new_event := Event.configure configfile cookie
  ({ a with filleventqueue := a.filleventqueue ++ [new_event] }, true)

/-- One call made by a producer thread. -/
inductive ProducerOp where
  | add (event_id : Nat) (payload : Bytes) (length : Nat)
  | reconfigure (configfile : Bytes) (cookie : Nat)
deriving DecidableEq, Repr

/-- The event object a producer call constructs. -/
def ProducerOp.event : ProducerOp → Event
  | .add event_id payload length => Event.new event_id payload length
  | .reconfigure configfile cookie => Event.configure configfile cookie

/-- Whether the call is `add_reconfigure_event`. -/
def ProducerOp.isReconfigure : ProducerOp → Bool
  | .add _ _ _ => false
  | .reconfigure _ _ => true

/-- Perform one producer call: the new state and the value returned. -/
def Audit.call (a : Audit) : ProducerOp → Audit × Bool
  | .add event_id payload length => a.add_to_filleventqueue event_id payload length
  | .reconfigure configfile cookie => a.add_reconfigure_event configfile cookie

/-- Perform a sequence of producer calls, first call first (the calls are
serialised by `producer_consumer_lock`). -/
def Audit.run (a : Audit) : List ProducerOp → Audit
  | [] => a
  | op :: ops => Audit.run (a.call op).1 ops

/-- The events of those calls of the sequence that returned `true`, in the
order in which the calls were made. -/
def Audit.accepted (a : Audit) : List ProducerOp → List Event
  | [] => []
  | op :: ops =>
    (if (a.call op).2 then [op.event] else []) ++ Audit.accepted (a.call op).1 ops

/-- The loop `while (!q->empty()) { e = q->front(); q->pop(); delete e; }` of
`Audit::clear_events_queues`: the events in the order in which `front()`
hands them out. -/
def drainOrder : List Event → List Event
  | [] => []
  | front :: popped => front :: drainOrder popped

/-- The member function `Audit::clear_events_queues` (audit.cc:489-500): the
state afterwards, and
the events deleted, in order, from the process queue and from the fill
queue. -/
def Audit.clear_events_queues (a : Audit) : Audit × List Event × List Event :=
  ({ a with processeventqueue := [], filleventqueue := [] },
   drainOrder a.processeventqueue, drainOrder a.filleventqueue)

/-- The member function `Audit::clear_events_map` (audit.cc:480-486): every
descriptor is deleted and the map is cleared. -/
def Audit.clear_events_map (a : Audit) : Audit :=
  { a with events := [] }

/-- What a call of `Audit::terminate_consumer_thread` leaves behind: the state,
the value returned, and the value of `terminate_audit_daemon` at the moment
`events_arrived` is broadcast, which is what a consumer woken by the broadcast
reads under `producer_consumer_lock`. -/
structure Terminated where
  audit : Audit
  returned : Bool
  flag_at_broadcast : Bool
deriving DecidableEq, Repr

/-- The member function `Audit::terminate_consumer_thread` (audit.cc:502-524).
`cb_join_thread` is the value `cb_join_thread(consumer_tid)` returns if it is
called (0 for success). -/
def Audit.terminate_consumer_thread (a : Audit) (cb_join_thread : Int) : Terminated :=
  let a1 := { a with terminate_audit_daemon := true }
  let seen := a1.terminate_audit_daemon
  if a1.consumer_thread_running then
    if cb_join_thread = 0 then
      { audit := { a1 with consumer_thread_running := false },
        returned := true, flag_at_broadcast := seen }
    else
      { audit := a1, returned := false, flag_at_broadcast := seen }
  else
    { audit := a1, returned := false, flag_at_broadcast := seen }

/-- The member function `Audit::clean_up` (audit.cc:526-550).  `cb_thread_self`
is the id of the calling thread. -/
def Audit.clean_up (a : Audit) (cb_join_thread : Int) (cb_thread_self : Nat) :
    Audit × Bool :=
  if !a.terminate_audit_daemon then
    let t := a.terminate_consumer_thread cb_join_thread
    if t.returned then
      let a1 := { t.audit with consumer_tid := cb_thread_self }
      let a2 := a1.clear_events_map
      let a3 := a2.clear_events_queues.1
      (a3, true)
    else
      (t.audit, false)
  else
    (a, true)

end Auditd

namespace Mcbp

/-- The engine result codes.  The codes the sources name are constructors of
their own; `other` stands for every further value of the enumeration. -/
inductive ENGINE_ERROR_CODE where
  | ENGINE_SUCCESS
  | ENGINE_KEY_ENOENT
  | ENGINE_ENOMEM
  | ENGINE_NOT_STORED
  | ENGINE_EINVAL
  | ENGINE_ENOTSUP
  | ENGINE_EWOULDBLOCK
  | ENGINE_DISCONNECT
  | ENGINE_FAILED
  | other (code : Nat)
deriving DecidableEq, Repr

/-- The request opcode, as far as the context looks at it. -/
inductive Opcode where
  | CreateBucket
  | DeleteBucket
  | other (raw : Nat)
deriving DecidableEq, Repr

/-- The parsed request: `getOpcode()`, `getKey()`, `getValue()`. -/
structure Request where
  opcode : Opcode
  key : Bytes
  value : Bytes
deriving DecidableEq, Repr

/-- The enumeration `CreateRemoveBucketCommandContext::State`. -/
inductive State where
  | Initial
  | Create
  | Remove
  | Done
deriving DecidableEq, Repr

/-- The value of the enumeration `BucketType` (declared outside the sources at
hand) that `module_to_bucket_type` computes. -/
abbrev BucketType := Nat

/-- The task objects the context creates, with their constructor arguments. -/
inductive Task where
  | McbpCreateBucketTask (name : Bytes) (config : Bytes) (type : BucketType)
  | McbpDestroyBucketTask (name : Bytes) (force : Bool)
deriving DecidableEq, Repr

/-- The status of a response packet. -/
inductive protocol_binary_response_status where
  | PROTOCOL_BINARY_RESPONSE_SUCCESS
  | other (raw : Nat)
deriving DecidableEq, Repr

/-- A C++ exception in flight. -/
inductive Exception where
  | bad_alloc
  | other_exception
deriving DecidableEq, Repr

/-- How a call ends: it returns a code or it throws. -/
inductive Outcome where
  | ret (code : ENGINE_ERROR_CODE)
  | thrown (e : Exception)
deriving DecidableEq, Repr

/-- What the collaborators of the context do during one call of `step()`.
`module_to_bucket_type` and `parse_config` are declared outside the sources at
hand and are taken as parameters; `parse_config` yields its return value and
the value it leaves in `force` (which starts as `false`).  The three places
where the source and the spec say a handler can fail are creating the task
(`std::make_shared`), starting it (`start()`: "May throw std::bad_alloc if
we're failing to start the thread") and submitting it
(`executorPool->schedule`); `none` means the call completes. -/
structure Env where
  module_to_bucket_type : Bytes → BucketType
  parse_config : Bytes → Int × Bool
  make_shared : Option Exception
  start : Option Exception
  schedule : Option Exception

/-- The context (`request`, `state`, `task`) together with what it does to the
objects it refers to: `packets` are the responses written to `connection` by
`mcbp_write_packet`, `started` the tasks whose `start()` completed,
`scheduled` the tasks handed to `executorPool->schedule`, oldest first.
`handlers` is a history variable: the handlers `step()` invoked, each with
the way it ended. -/
structure CreateRemoveBucketCommandContext where
  request : Request
  state : State
  task : Option Task
  packets : List protocol_binary_response_status
  started : List Task
  scheduled : List Task
  handlers : List (State × Outcome)
deriving DecidableEq, Repr

/-- The position `std::string::find('\0')` returns (`none` for `npos`). -/
def find_nul (s : Bytes) : Option Nat :=
  s.findIdx? (fun b => b == 0)

/-- The bytes a reader of the C string at `s.c_str()` sees: up to the first
NUL (a `std::string` is followed by a NUL). -/
def c_str (s : Bytes) : Bytes :=
  s.takeWhile (fun b => b != 0)

/-- The C string starting at `&s[pos]`, for `pos ≤ s.size()`. -/
def c_str_from (s : Bytes) (pos : Nat) : Bytes :=
  c_str (s.drop pos)

namespace CreateRemoveBucketCommandContext

/-- A context as the constructor leaves it. -/
def fresh (request : Request) : CreateRemoveBucketCommandContext :=
  { request := request, state := State.Initial, task := none,
    packets := [], started := [], scheduled := [], handlers := [] }

/-- The handler `CreateRemoveBucketCommandContext::initial` (lines 54-62). -/
def initial (c : CreateRemoveBucketCommandContext) :
    CreateRemoveBucketCommandContext × Outcome :=
  if c.request.opcode = Opcode.CreateBucket then
    ({ c with state := State.Create }, Outcome.ret ENGINE_ERROR_CODE.ENGINE_SUCCESS)
  else
    ({ c with state := State.Remove }, Outcome.ret ENGINE_ERROR_CODE.ENGINE_SUCCESS)

/-- The tail shared by `create` and `remove`: assign the new task to `task`,
start it, schedule it, move to `Done` and return `ENGINE_EWOULDBLOCK`; a
throwing call ends the handler where it stands. -/
def submit (env : Env) (c : CreateRemoveBucketCommandContext) (t : Task) :
    CreateRemoveBucketCommandContext × Outcome :=
  match env.make_shared with
  | some e => (c, Outcome.thrown e)
  | none =>
    let c1 := { c with task := some t }
    match env.start with
    | some e => (c1, Outcome.thrown e)
    | none =>
      let c2 := { c1 with started := c1.started ++ [t] }
      match env.schedule with
      | some e => (c2, Outcome.thrown e)
      | none =>
        ({ c2 with scheduled := c2.scheduled ++ [t], state := State.Done },
         Outcome.ret ENGINE_ERROR_CODE.ENGINE_EWOULDBLOCK)

/-- The handler `CreateRemoveBucketCommandContext::create` (lines 64-88). -/
def create (env : Env) (c : CreateRemoveBucketCommandContext) :
    CreateRemoveBucketCommandContext × Outcome :=
  let name := c.request.key
  let value := c.request.value
  let config : Bytes :=
    match find_nul value with
    | some marker => c_str_from value (marker + 1)
    | none => []
  let type := env.module_to_bucket_type (c_str value)
  submit env c (Task.McbpCreateBucketTask name config type)

/-- The handler `CreateRemoveBucketCommandContext::remove` (lines 90-115). -/
def remove (env : Env) (c : CreateRemoveBucketCommandContext) :
    CreateRemoveBucketCommandContext × Outcome :=
  let name := c.request.key
  let config := c.request.value
  let parsed := env.parse_config (c_str config)
  let force := parsed.2
  if parsed.1 ≠ 0 then
    (c, Outcome.ret ENGINE_ERROR_CODE.ENGINE_EINVAL)
  else
    submit env c (Task.McbpDestroyBucketTask name force)

/-- The call `mcbp_write_packet(&connection, status)`. -/
def mcbp_write_packet (c : CreateRemoveBucketCommandContext)
    (status : protocol_binary_response_status) : CreateRemoveBucketCommandContext :=
  { c with packets := c.packets ++ [status] }

/-- How one pass through the `switch` of `step()` ends: a handler was invoked
and ended with `ret` (then the `while` condition is looked at), or the `Done`
case returned from `step()`. -/
inductive Flow where
  | handler (ret : Outcome)
  | returned (code : ENGINE_ERROR_CODE)
deriving DecidableEq, Repr

/-- Note in the history variable that the handler of state `s` ran and how it
ended. -/
def record (s : State) (p : CreateRemoveBucketCommandContext × Outcome) :
    CreateRemoveBucketCommandContext × Flow :=
  ({ p.1 with handlers := p.1.handlers ++ [(s, p.2)] }, Flow.handler p.2)

/-- One pass through `switch (state)` in `step()` (lines 121-135). -/
def switchState (env : Env) (c : CreateRemoveBucketCommandContext) :
    CreateRemoveBucketCommandContext × Flow :=
  match c.state with
  | State.Initial => record State.Initial (initial c)
  | State.Create => record State.Create (create env c)
  | State.Remove => record State.Remove (remove env c)
  | State.Done =>
    (mcbp_write_packet c protocol_binary_response_status.PROTOCOL_BINARY_RESPONSE_SUCCESS,
     Flow.returned ENGINE_ERROR_CODE.ENGINE_SUCCESS)

/-- The `do { switch ... } while (ret == ENGINE_SUCCESS)` loop of `step()`,
run for at most `fuel` passes; `none` when the passes are used up before the
loop is left.  An exception leaves the loop. -/
def stepLoop (env : Env) : Nat → CreateRemoveBucketCommandContext →
    Option (CreateRemoveBucketCommandContext × Outcome)
  | 0, _ => none
  | fuel + 1, c =>
    match switchState env c with
    | (c', Flow.returned code) => some (c', Outcome.ret code)
    | (c', Flow.handler (Outcome.ret ENGINE_ERROR_CODE.ENGINE_SUCCESS)) => stepLoop env fuel c'
    | (c', Flow.handler ret) => some (c', ret)

/-- The handler `catch (const std::bad_alloc&) { return ENGINE_ENOMEM; }` around
the body of `step()`: what the caller sees when the body ended with `r`. -/
def catch_bad_alloc : Outcome → Outcome
  | Outcome.thrown Exception.bad_alloc => Outcome.ret ENGINE_ERROR_CODE.ENGINE_ENOMEM
  | r => r

/-- The member function `CreateRemoveBucketCommandContext::step` (lines
117-142): the loop inside `try`, with `std::bad_alloc` caught and turned into
`ENGINE_ENOMEM`; any other exception leaves `step()`. -/
def step (env : Env) (fuel : Nat) (c : CreateRemoveBucketCommandContext) :
    Option (CreateRemoveBucketCommandContext × Outcome) :=
  match stepLoop env fuel c with
  | none => none
  | some (c', r) => some (c', catch_bad_alloc r)

end CreateRemoveBucketCommandContext

/-- Collaborators all of whose calls complete: every module name is bucket
type 0 and every configuration parses, with `force` left false. -/
def Env.completing : Env :=
  { module_to_bucket_type := fun _ => 0, parse_config := fun _ => (0, false),
    make_shared := none, start := none, schedule := none }

/-- A CreateBucket request for bucket "b" of module "m" with config "c". -/
def Request.createExample : Request :=
  { opcode := Opcode.CreateBucket, key := [98], value := [109, 0, 99] }

/-- A DeleteBucket request for bucket "b" with an empty value. -/
def Request.deleteExample : Request :=
  { opcode := Opcode.DeleteBucket, key := [98], value := [] }

/-- The connection states the executors set; `other` stands for every
further state of `McbpStateMachine`. -/
inductive McbpStateMachineState where
  | new_cmd
  | closing
  | other (raw : Nat)
deriving DecidableEq, Repr

/-- The request header a cookie hands out through `getRequest()`: `opaq` is
what `getOpaque()` returns, `vbucket` what `getVBucket()` returns, and `body`
the bytes of the packet that follow the header. -/
structure Header where
  opaq : Nat
  vbucket : Nat
  body : Bytes
deriving DecidableEq, Repr

/-- One call of the engine function `dcp.buffer_acknowledgement`, with the
arguments it received. -/
structure BufferAckCall where
  opaq : Nat
  vbucket : Nat
  buffer_bytes : Nat
deriving DecidableEq, Repr

/-- A cookie together with its connection: the stored asynchronous status
`aiostat`, the would-block flag, the request, and the state of the
connection's state machine.  The remaining members are history variables:
the states passed to `setState`, the codes passed to `sendResponse`, the
number of `mcbp::haveDcpPrivilege` calls and the calls made to the engine,
oldest first. -/
structure Cookie where
  aiostat : ENGINE_ERROR_CODE
  ewouldblock : Bool
  request : Header
  connection_state : McbpStateMachineState
  set_state_calls : List McbpStateMachineState
  responses : List ENGINE_ERROR_CODE
  privilege_checks : Nat
  engine_calls : List BufferAckCall
deriving DecidableEq, Repr

/-- What the collaborators of `dcp_buffer_acknowledgement_executor` return,
all declared outside the sources at hand: `mcbp::haveDcpPrivilege(cookie)`,
the engine function `dcp.buffer_acknowledgement` as a function of `opaq`,
the vbucket and the byte count, and `connection.remapErrorCode`. -/
structure DcpEnv where
  haveDcpPrivilege : ENGINE_ERROR_CODE
  buffer_acknowledgement : Nat → Nat → Nat → ENGINE_ERROR_CODE
  remapErrorCode : ENGINE_ERROR_CODE → ENGINE_ERROR_CODE

/-- The value `ntohl(bbytes)` after `memcpy(&bbytes, &buffer_bytes, 4)`: the
four bytes at the start of the body read as a big-endian 32-bit number. -/
def ntohl_buffer_bytes (body : Bytes) : Nat :=
  (body.getD 0 0 % 256) * 2 ^ 24 + (body.getD 1 0 % 256) * 2 ^ 16 +
    (body.getD 2 0 % 256) * 2 ^ 8 + body.getD 3 0 % 256

/-- Lines 23-48 of `dcp_buffer_acknowledgement_executor`: take the stored
status and reset it, clear the would-block flag, check the privilege and call
the engine if everything succeeded so far, and remap the result.  The value
is the cookie at the `switch` and the remapped `ret`. -/
def dcp_buffer_acknowledgement_result (env : DcpEnv) (cookie : Cookie) :
    Cookie × ENGINE_ERROR_CODE :=
  let ret := cookie.aiostat
  let cookie := { cookie with aiostat := ENGINE_ERROR_CODE.ENGINE_SUCCESS }
  let cookie := { cookie with ewouldblock := false }
  let (cookie, ret) :=
    if ret = ENGINE_ERROR_CODE.ENGINE_SUCCESS then
      let ret := env.haveDcpPrivilege
      let cookie := { cookie with privilege_checks := cookie.privilege_checks + 1 }
      if ret = ENGINE_ERROR_CODE.ENGINE_SUCCESS then
        let header := cookie.request
        let bbytes := ntohl_buffer_bytes header.body
        ({ cookie with
            engine_calls := cookie.engine_calls ++
              [{ opaq := header.opaq, vbucket := header.vbucket,
                 buffer_bytes := bbytes }] },
         env.buffer_acknowledgement header.opaq header.vbucket bbytes)
      else
        (cookie, ret)
    else
      (cookie, ret)
  (cookie, env.remapErrorCode ret)

/-- The function `dcp_buffer_acknowledgement_executor` (lines 22-65): the
`switch` on the remapped result. -/
def dcp_buffer_acknowledgement_executor (env : DcpEnv) (cookie : Cookie) : Cookie :=
  let (cookie, ret) := dcp_buffer_acknowledgement_result env cookie
  match ret with
  | ENGINE_ERROR_CODE.ENGINE_SUCCESS =>
    { cookie with
      connection_state := McbpStateMachineState.new_cmd,
      set_state_calls := cookie.set_state_calls ++ [McbpStateMachineState.new_cmd] }
  | ENGINE_ERROR_CODE.ENGINE_DISCONNECT =>
    { cookie with
      connection_state := McbpStateMachineState.closing,
      set_state_calls := cookie.set_state_calls ++ [McbpStateMachineState.closing] }
  | ENGINE_ERROR_CODE.ENGINE_EWOULDBLOCK =>
    { cookie with ewouldblock := true }
  | _ =>
    { cookie with responses := cookie.responses ++ [ret] }

/-- A cookie for a buffer acknowledgement of 0x01020304 bytes on vbucket 7,
in the state `other 0`, with the given stored status and would-block flag. -/
def Cookie.example (aiostat : ENGINE_ERROR_CODE) (ewouldblock : Bool) : Cookie :=
  { aiostat := aiostat, ewouldblock := ewouldblock,
    request := { opaq := 42, vbucket := 7, body := [1, 2, 3, 4] },
    connection_state := McbpStateMachineState.other 0,
    set_state_calls := [], responses := [], privilege_checks := 0,
    engine_calls := [] }

/-- Collaborators of the executor: the privilege check succeeds, the engine
answers `engine`, and error codes are remapped to themselves. -/
def DcpEnv.answering (engine : ENGINE_ERROR_CODE) : DcpEnv :=
  { haveDcpPrivilege := ENGINE_ERROR_CODE.ENGINE_SUCCESS,
    buffer_acknowledgement := fun _ _ _ => engine,
    remapErrorCode := fun e => e }

end Mcbp

namespace EpEngine

/-- A `std::chrono::milliseconds` count as a count of microseconds. -/
def milliseconds (n : Nat) : Nat := n * 1000

/-- A `std::chrono::seconds` count as a count of microseconds. -/
def seconds (n : Nat) : Nat := n * 1000000

/-- The task classes of tasks.h, each with the members its object holds
(pointers and references as numbers, `ProcessClock::time_point` as a count). -/
inductive GlobalTask where
  | FlusherTask (flusher : Nat) (desc : Bytes)
  | CompactTask (bucket : Nat) (compactCtx : Nat) (cookie : Nat) (desc : Bytes)
  | StatSnap (runOnce : Bool)
  | MultiBGFetcherTask (bgfetcher : Nat)
  | DeleteAllTask
  | VKeyStatBGFetchTask (key : Bytes) (vbucket : Nat) (bySeqNum : Nat) (cookie : Nat)
      (description : Bytes)
  | SingleBGFetcherTask (key : Bytes) (vbucket : Nat) (cookie : Nat) (metaFetch : Bool)
      (init : Nat) (description : Bytes)
  | WorkLoadMonitor (prevNumMutations : Nat) (prevNumGets : Nat)
deriving DecidableEq, Repr

/-- The member function `maxExpectedDuration()` of each task class of tasks.h,
in microseconds (the return type is `std::chrono::microseconds`). -/
def GlobalTask.maxExpectedDuration : GlobalTask → Nat
  | .FlusherTask _ _ => milliseconds 400
  | .CompactTask _ _ _ _ => seconds 25
  | .StatSnap _ => milliseconds 250
  | .MultiBGFetcherTask _ => milliseconds 700
  | .DeleteAllTask => seconds 10
  | .VKeyStatBGFetchTask _ _ _ _ _ => milliseconds 250
  | .SingleBGFetcherTask _ _ _ _ _ _ => milliseconds 250
  | .WorkLoadMonitor _ _ => milliseconds 1

/-- The class `TapConnection` (ep_engine.h:86-157): the client name, the queue
of keys still to send, front first, the count of records fetched and the
pending-flush flag. -/
structure TapConnection where
  client : Bytes
  queue : List Bytes
  recordsFetched : Nat
  pendingFlush : Bool
deriving DecidableEq, Repr

/-- The constructor `TapConnection(const char *n)`. -/
def TapConnection.new (n : Bytes) : TapConnection :=
  { client := n, queue := [], recordsFetched := 0, pendingFlush := false }

/-- The member function `TapConnection::addEvent(std::string &key)`
(ep_engine.h:101-106): the connection afterwards and the value returned. -/
def TapConnection.addEvent (t : TapConnection) (key : Bytes) : TapConnection × Bool :=
  let ret := t.queue.isEmpty
  ({ t with queue := t.queue ++ [key] }, ret)

/-- Modelled from the spec: the class `TaggedPtr` of tagged_ptr.h, of which
only the unit tests (tagged_ptr_test.cc) are among the sources at hand.  The
object is one 64-bit word `raw` that holds an address in its low 48 bits and a
16-bit tag in the 16 bits above; a pointer is an address below `2 ^ 48`. -/
structure TaggedPtr where
  raw : Nat
deriving DecidableEq, Repr

/-- Modelled from the spec: the default constructor `TaggedPtr()`, the null
pointer with tag 0 (it tests false in `boolFalseTest`). -/
def TaggedPtr.null : TaggedPtr := { raw := 0 }

/-- Modelled from the spec: the member function `get()`, the address in the low
48 bits. -/
def TaggedPtr.get (x : TaggedPtr) : Nat := x.raw % 2 ^ 48

/-- Modelled from the spec: the member function `getTag()`, the 16 bits above
the address. -/
def TaggedPtr.getTag (x : TaggedPtr) : Nat := x.raw / 2 ^ 48 % 2 ^ 16

/-- Modelled from the spec: the member function `set(obj)`, which replaces the
address bits and keeps the tag bits. -/
def TaggedPtr.set (x : TaggedPtr) (obj : Nat) : TaggedPtr :=
  { raw := (x.raw / 2 ^ 48 % 2 ^ 16) * 2 ^ 48 + obj % 2 ^ 48 }

/-- Modelled from the spec: the member function `setTag(tag)` with its
`uint16_t` parameter, which replaces the tag bits and keeps the address
bits. -/
def TaggedPtr.setTag (x : TaggedPtr) (tag : Nat) : TaggedPtr :=
  { raw := (tag % 2 ^ 16) * 2 ^ 48 + x.raw % 2 ^ 48 }

/-- Modelled from the spec: the constructor `TaggedPtr(obj)`. -/
def TaggedPtr.ofObject (obj : Nat) : TaggedPtr :=
  TaggedPtr.null.set obj

/-- Modelled from the spec: the constructor `TaggedPtr(obj, tag)`. -/
def TaggedPtr.ofObjectAndTag (obj : Nat) (tag : Nat) : TaggedPtr :=
  (TaggedPtr.null.set obj).setTag tag

/-- The member function `TapConnection::empty` (ep_engine.h:116-118). -/
def TapConnection.empty (t : TapConnection) : Bool :=
  t.queue.isEmpty

/-- The member function `TapConnection::next` (ep_engine.h:108-114): the
connection afterwards and the key returned; `none` when `assert(!empty())`
fails.  `recordsFetched` is a `size_t`. -/
def TapConnection.next (t : TapConnection) : Option (TapConnection × Bytes) :=
  match t.queue with
  | [] => none
  | key :: rest =>
    some ({ t with queue := rest, recordsFetched := (t.recordsFetched + 1) % 2 ^ 64 },
          key)

/-- The member function `TapConnection::flush` (ep_engine.h:120-124). -/
def TapConnection.flush (t : TapConnection) : TapConnection :=
  { t with pendingFlush := true, queue := [] }

/-- The member function `TapConnection::shouldFlush` (ep_engine.h:126-130):
the connection afterwards and the value returned. -/
def TapConnection.shouldFlush (t : TapConnection) : TapConnection × Bool :=
  let ret := t.pendingFlush
  ({ t with pendingFlush := false }, ret)

/-- One call on a `TapConnection`. -/
inductive TapOp where
  | addEvent (key : Bytes)
  | next
  | flush
  | shouldFlush
deriving DecidableEq, Repr

/-- Whether the call is `flush()`. -/
def TapOp.isFlush : TapOp → Bool
  | .flush => true
  | _ => false

/-- Whether the call is `shouldFlush()`. -/
def TapOp.isShouldFlush : TapOp → Bool
  | .shouldFlush => true
  | _ => false

/-- Perform a sequence of calls on a connection, first call first, and collect
the values the `shouldFlush()` calls return, in order.  A `next()` whose
assertion fails ends the run. -/
def TapConnection.run (t : TapConnection) : List TapOp → TapConnection × List Bool
  | [] => (t, [])
  | .addEvent key :: ops => TapConnection.run (t.addEvent key).1 ops
  | .next :: ops =>
    match t.next with
    | none => (t, [])
    | some (t', _) => TapConnection.run t' ops
  | .flush :: ops => TapConnection.run t.flush ops
  | .shouldFlush :: ops =>
    let r := TapConnection.run t.shouldFlush.1 ops
    (r.1, t.shouldFlush.2 :: r.2)

/-- The class `Item` (ep_engine.h:27-69) with the members of its base `item`
that the engine reads: `nkey` is a `uint16_t` and `nbytes` a `uint32_t`. -/
structure Item where
  key : Bytes
  nkey : Nat
  nbytes : Nat
  flags : Nat
  iflag : Nat
  exptime : Nat
  data : Bytes
deriving DecidableEq, Repr

/-- The constructor `Item(k, nk, nb, fl, exp)` (ep_engine.h:34-44): the key is
the `nk` bytes at `k`, `nkey` and `nbytes` are cast to 16 and 32 bits, and the
data buffer of `nbytes` bytes is filled in by the caller later (zeros
here). -/
def Item.allocated (k : Bytes) (nk : Nat) (nb : Nat) (fl : Nat) (exp : Nat) : Item :=
  { key := k.take nk, nkey := nk % 2 ^ 16, nbytes := nb % 2 ^ 32, flags := fl,
    iflag := 0, exptime := exp, data := List.replicate (nb % 2 ^ 32) 0 }

/-- The constructor `Item(k, fl, exp, dta, nb)` (ep_engine.h:46-57). -/
def Item.withData (k : Bytes) (fl : Nat) (exp : Nat) (dta : Bytes) (nb : Nat) : Item :=
  { key := k, nkey := k.length % 2 ^ 16, nbytes := nb % 2 ^ 32, flags := fl,
    iflag := 0, exptime := exp, data := dta.take (nb % 2 ^ 32) }

/-- The two calls the engine makes on its backend (class `KVStore`, declared
in ep.hh outside the sources at hand), as functions of a backend state `σ`:
`get` yields the value when the callback reports success, `set` the state
after the write. -/
structure KVStore (σ : Type) where
  get : σ → Bytes → Option Bytes
  set : σ → Bytes → Bytes → σ

/-- The value of the enumeration `ENGINE_STORE_OPERATION`; `other` stands for
every operation `store` does not name. -/
inductive ENGINE_STORE_OPERATION where
  | OPERATION_ADD
  | OPERATION_SET
  | OPERATION_REPLACE
  | other (raw : Nat)
deriving DecidableEq, Repr

/-- The members of `EventuallyPersistentEngine` that `store` and the tap
functions use: the backend, and the map from cookie to tap connection as the
list of its entries in key order.  `tap_callbacks` is a history variable: the
cookies passed to `perform_callbacks(ON_TAP_QUEUE, NULL, cookie)`, oldest
first. -/
structure EventuallyPersistentEngine (σ : Type) where
  backend : σ
  tapConnectionMap : List (Nat × TapConnection)
  tap_callbacks : List Nat

namespace EventuallyPersistentEngine

/-- The member function `get` (ep_engine.h:262-279): the key looked up is the
`nkey` bytes at `key`; the result is the new item and `ENGINE_SUCCESS`, or
`ENGINE_KEY_ENOENT`. -/
def get {σ : Type} (kv : KVStore σ) (e : EventuallyPersistentEngine σ) (key : Bytes)
    (nkey : Nat) : Option Item × Mcbp.ENGINE_ERROR_CODE :=
  let k := key.take nkey
  match kv.get e.backend k with
  | some value =>
    (some (Item.withData k 0 0 value value.length), Mcbp.ENGINE_ERROR_CODE.ENGINE_SUCCESS)
  | none => (none, Mcbp.ENGINE_ERROR_CODE.ENGINE_KEY_ENOENT)

/-- The loop of `addMutationEvent` over `tapConnectionMap` (lines 497-501):
the map afterwards and the list `clients`. -/
def addEventToAll (key : Bytes) :
    List (Nat × TapConnection) → List (Nat × TapConnection) × List Nat
  | [] => ([], [])
  | (cookie, connection) :: rest =>
    let r := connection.addEvent key
    let done := addEventToAll key rest
    ((cookie, r.1) :: done.1, if r.2 then cookie :: done.2 else done.2)

/-- The member function `notifyTapQueues` (ep_engine.h:482-488). -/
def notifyTapQueues {σ : Type} (e : EventuallyPersistentEngine σ) (clients : List Nat) :
    EventuallyPersistentEngine σ :=
  { e with tap_callbacks := e.tap_callbacks ++ clients }

/-- The member function `addMutationEvent` (ep_engine.h:491-504). -/
def addMutationEvent {σ : Type} (e : EventuallyPersistentEngine σ) (it : Item) :
    EventuallyPersistentEngine σ :=
  let r := addEventToAll it.key e.tapConnectionMap
  notifyTapQueues { e with tapConnectionMap := r.1 } r.2

/-- The three statements `backend->set(...); *cas = 0; addMutationEvent(it);`
that every storing branch of `store` runs; the value written is the `nbytes`
bytes at `data`. -/
def setAndNotify {σ : Type} (kv : KVStore σ) (e : EventuallyPersistentEngine σ)
    (it : Item) : EventuallyPersistentEngine σ × Nat :=
  let e1 := { e with backend := kv.set e.backend it.key (it.data.take it.nbytes) }
  (e1.addMutationEvent it, 0)

/-- The member function `store` (ep_engine.h:345-381): the engine afterwards,
the value left in `*cas`, and the code returned. -/
def store {σ : Type} (kv : KVStore σ) (e : EventuallyPersistentEngine σ) (it : Item)
    (cas : Nat) (operation : ENGINE_STORE_OPERATION) :
    EventuallyPersistentEngine σ × Nat × Mcbp.ENGINE_ERROR_CODE :=
  match operation with
  | .OPERATION_SET =>
    let r := setAndNotify kv e it
    (r.1, r.2, Mcbp.ENGINE_ERROR_CODE.ENGINE_SUCCESS)
  | .OPERATION_ADD =>
    if (get kv e it.key it.nkey).2 = Mcbp.ENGINE_ERROR_CODE.ENGINE_SUCCESS then
      (e, cas, Mcbp.ENGINE_ERROR_CODE.ENGINE_NOT_STORED)
    else
      let r := setAndNotify kv e it
      (r.1, r.2, Mcbp.ENGINE_ERROR_CODE.ENGINE_SUCCESS)
  | .OPERATION_REPLACE =>
    if (get kv e it.key it.nkey).2 = Mcbp.ENGINE_ERROR_CODE.ENGINE_SUCCESS then
      let r := setAndNotify kv e it
      (r.1, r.2, Mcbp.ENGINE_ERROR_CODE.ENGINE_SUCCESS)
    else
      (e, cas, Mcbp.ENGINE_ERROR_CODE.ENGINE_NOT_STORED)
  | .other _ => (e, cas, Mcbp.ENGINE_ERROR_CODE.ENGINE_ENOTSUP)

end EventuallyPersistentEngine

/-- A backend for the examples: a table of key/value pairs, the most recent
write first. -/
def KVStore.table : KVStore (List (Bytes × Bytes)) :=
  { get := fun table k => table.lookup k,
    set := fun table k v => (k, v) :: table }

end EpEngine

namespace Auditd

/-- A node of a parsed JSON document, as `cJSON*` points to it; what the
constructor of `EventDescriptor` makes of it is a parameter. -/
abbrev cJSON := Nat

/-- How `new EventDescriptor(event_ptr)` ends: with the descriptor built, or
with one of the two exceptions `initialize_event_data_structures` catches. -/
inductive Constructed where
  | descriptor (entry : EventDescriptor)
  | bad_alloc (what : Bytes)
  | logic_error (what : Bytes)
deriving DecidableEq, Repr

/-- What the collaborators of `initialize_event_data_structures` do, both
declared outside the sources at hand: the constructor
`EventDescriptor(const cJSON*)` and `config.is_event_disabled(id)`. -/
structure DescriptorEnv where
  new_EventDescriptor : cJSON → Constructed
  is_event_disabled : Nat → Bool

/-- The call `events.find(id)` on the map: the descriptor stored under `id`,
if there is one. -/
def events_find (events : List (Nat × EventDescriptor)) (id : Nat) :
    Option EventDescriptor :=
  match events with
  | [] => none
  | (k, v) :: rest => if k = id then some v else events_find rest id

/-- Put a new entry at its place in the key order of the map. -/
def events_place (events : List (Nat × EventDescriptor)) (id : Nat)
    (entry : EventDescriptor) : List (Nat × EventDescriptor) :=
  match events with
  | [] => [(id, entry)]
  | (k, v) :: rest =>
    if id < k then (id, entry) :: (k, v) :: rest
    else (k, v) :: events_place rest id entry

/-- The call `events.insert(std::pair(id, entry))` on a `std::map`: a key that
is already in the map keeps its entry, a new key is added in key order. -/
def events_insert (events : List (Nat × EventDescriptor)) (id : Nat)
    (entry : EventDescriptor) : List (Nat × EventDescriptor) :=
  match events_find events id with
  | some _ => events
  | none => events_place events id entry

/-- The call `Audit::log_error(return_code, string)`. -/
def Audit.log_error (a : Audit) (return_code : AuditErrorCode) (string : Bytes) : Audit :=
  { a with logged := a.logged ++ [LogLine.error return_code string] }

/-- The member function `Audit::initialize_event_data_structures`
(audit.cc:242-262); `event_ptr` is `none` for the null pointer. -/
def Audit.initialize_event_data_structures (env : DescriptorEnv) (a : Audit)
    (event_ptr : Option cJSON) : Audit × Bool :=
  match event_ptr with
  | none => (a.log_error AuditErrorCode.JSON_MISSING_DATA_ERROR [], false)
  | some json =>
    match env.new_EventDescriptor json with
    | Constructed.descriptor entry =>
      let entry :=
        if env.is_event_disabled entry.id then { entry with enabled := false } else entry
      ({ a with events := events_insert a.events entry.id entry }, true)
    | Constructed.bad_alloc what =>
      (a.log_error AuditErrorCode.MEMORY_ALLOCATION_ERROR what, false)
    | Constructed.logic_error what =>
      (a.log_error AuditErrorCode.JSON_KEY_ERROR what, true)

/-- A descriptor with the given id and enabled flag, for the examples. -/
def EventDescriptor.example (id : Nat) (enabled : Bool) : EventDescriptor :=
  { id := id, name := [], description := [], sync := false, enabled := enabled }

/-- Whether the events map agrees with the configuration: every entry stored
under an id that `config.is_event_disabled` lists is disabled.  The map is
filled only by `initialize_event_data_structures`, after
`process_module_descriptor` has cleared it (audit.cc:304). -/
def events_respect_config (env : DescriptorEnv) (events : List (Nat × EventDescriptor)) :
    Bool :=
  events.all (fun p => !env.is_event_disabled p.1 || !p.2.enabled)

/-- The loop of `Audit::process_module_data_structures` over the events of one
array (audit.cc:282-288): `initialize_event_data_structures` is called on each
event in turn, and the first call that returns false ends the loop with
false. -/
def Audit.initialize_events (env : DescriptorEnv) (a : Audit) : List cJSON → Audit × Bool
  | [] => (a, true)
  | event_ptr :: next =>
    let r := a.initialize_event_data_structures env (some event_ptr)
    if r.2 then Audit.initialize_events env r.1 next else (r.1, false)

/-- The state in which `initialize_event_data_structures` is called while a
descriptor file is processed: `process_module_descriptor` has cleared the
events map (audit.cc:304) and the events `earlier` in the file have been
initialised. -/
def Audit.while_processing (env : DescriptorEnv) (a : Audit) (earlier : List cJSON) :
    Audit :=
  (a.clear_events_map.initialize_events env earlier).1

end Auditd

namespace Scheduler

/-- Modelled from the spec: a task as the worker pool sees it (spec 3, "Task"),
the pool itself not being among the sources at hand: its kind, its submission
sequence number and its `wake time`, on a clock that counts in natural
numbers. -/
structure Task where
  kind : Nat
  seq : Nat
  wake : Nat
deriving DecidableEq, Repr

end Scheduler

/-! ## The audit fill queue -/

namespace Auditd

/-- A producer call leaves the fill queue as it was or appends its event at
the tail, according to the value it returns. -/
theorem call_filleventqueue (a : Audit) (op : ProducerOp) :
    (a.call op).1.filleventqueue =
      a.filleventqueue ++ (if (a.call op).2 then [op.event] else []) := by
  cases op with
  | add event_id payload length =>
    by_cases h : a.filleventqueue.length < a.max_audit_queue <;>
      simp [Audit.call, Audit.add_to_filleventqueue, ProducerOp.event, h]
  | reconfigure configfile cookie =>
    simp [Audit.call, Audit.add_reconfigure_event, ProducerOp.event]

/-- No producer call changes the configured maximum. -/
theorem call_max_audit_queue (a : Audit) (op : ProducerOp) :
    (a.call op).1.max_audit_queue = a.max_audit_queue := by
  cases op with
  | add event_id payload length =>
    by_cases h : a.filleventqueue.length < a.max_audit_queue <;>
      simp [Audit.call, Audit.add_to_filleventqueue, h]
  | reconfigure configfile cookie =>
    simp [Audit.call, Audit.add_reconfigure_event]

/-- One producer call lets the fill queue grow past the maximum only if it is
`add_reconfigure_event`. -/
theorem call_length_le (a : Audit) (op : ProducerOp) (k : Nat)
    (h : a.filleventqueue.length ≤ a.max_audit_queue + k) :
    (a.call op).1.filleventqueue.length ≤
      a.max_audit_queue + (k + (if op.isReconfigure then 1 else 0)) := by
  cases op with
  | add event_id payload length =>
    by_cases hlt : a.filleventqueue.length < a.max_audit_queue
    · simp [Audit.call, Audit.add_to_filleventqueue, ProducerOp.isReconfigure, hlt]
      omega
    · simp [Audit.call, Audit.add_to_filleventqueue, ProducerOp.isReconfigure, hlt]
      omega
  | reconfigure configfile cookie =>
    simp [Audit.call, Audit.add_reconfigure_event, ProducerOp.isReconfigure]
    omega

/-- The bound of `call_length_le` along a sequence of producer calls. -/
theorem run_length_le (ops : List ProducerOp) :
    ∀ (a : Audit) (k : Nat), a.filleventqueue.length ≤ a.max_audit_queue + k →
      (a.run ops).filleventqueue.length ≤
        a.max_audit_queue + (k + ops.countP ProducerOp.isReconfigure) := by
  induction ops with
  | nil => intro a k h; simpa [Audit.run] using h
  | cons op ops ih =>
    intro a k h
    have h1 := call_length_le a op k h
    rw [← call_max_audit_queue a op] at h1
    have h2 := ih (a.call op).1 _ h1
    rw [call_max_audit_queue a op] at h2
    simp only [Audit.run]
    rw [List.countP_cons]
    cases hop : op.isReconfigure <;> simp [hop] at h2 ⊢ <;> omega

/-- A sequence of producer calls does not change the configured maximum. -/
theorem run_max_audit_queue (ops : List ProducerOp) :
    ∀ a : Audit, (a.run ops).max_audit_queue = a.max_audit_queue := by
  induction ops with
  | nil => intro a; rfl
  | cons op ops ih =>
    intro a
    simp only [Audit.run]
    rw [ih, call_max_audit_queue]

/-- The drain loop hands the events out front to back. -/
theorem drainOrder_eq (q : List Event) : drainOrder q = q := by
  induction q with
  | nil => rfl
  | cons e q ih => simp [drainOrder, ih]

/-- The fill queue after a sequence of producer calls is the queue before,
followed by the accepted events in call order. -/
theorem run_filleventqueue (ops : List ProducerOp) :
    ∀ a : Audit, (a.run ops).filleventqueue = a.filleventqueue ++ a.accepted ops := by
  induction ops with
  | nil => intro a; simp [Audit.run, Audit.accepted]
  | cons op ops ih =>
    intro a
    simp only [Audit.run, Audit.accepted]
    rw [ih, call_filleventqueue, List.append_assoc]

/-- C1: when the fill queue holds fewer than `max_audit_queue` events,
`add_to_filleventqueue` returns true, the queue is the old queue with the new
event at its tail, so its size grows by exactly one, and `dropped_events` is
unchanged. -/
theorem add_to_filleventqueue_below_max (a : Audit) (event_id : Nat) (payload : Bytes)
    (length : Nat) (h : a.filleventqueue.length < a.max_audit_queue) :
    (a.add_to_filleventqueue event_id payload length).2 = true ∧
    (a.add_to_filleventqueue event_id payload length).1.filleventqueue =
      a.filleventqueue ++ [Event.new event_id payload length] ∧
    (a.add_to_filleventqueue event_id payload length).1.filleventqueue.length =
      a.filleventqueue.length + 1 ∧
    (a.add_to_filleventqueue event_id payload length).1.dropped_events =
      a.dropped_events := by
  simp [Audit.add_to_filleventqueue, h]

/-- Witness of C1: a queue of capacity 2 holding one event accepts a second. -/
theorem add_to_filleventqueue_below_max_witness :
    ((Audit.fresh 2).add_to_filleventqueue 7 [1, 2] 2).1.filleventqueue.length < 2 ∧
    ((((Audit.fresh 2).add_to_filleventqueue 7 [1, 2] 2).1.add_to_filleventqueue
        8 [3, 4, 5] 2).2 = true ∧
     (((Audit.fresh 2).add_to_filleventqueue 7 [1, 2] 2).1.add_to_filleventqueue
        8 [3, 4, 5] 2).1.filleventqueue =
       ((Audit.fresh 2).add_to_filleventqueue 7 [1, 2] 2).1.filleventqueue ++
         [Event.new 8 [3, 4, 5] 2] ∧
     (((Audit.fresh 2).add_to_filleventqueue 7 [1, 2] 2).1.add_to_filleventqueue
        8 [3, 4, 5] 2).1.filleventqueue.length =
       ((Audit.fresh 2).add_to_filleventqueue 7 [1, 2] 2).1.filleventqueue.length + 1 ∧
     (((Audit.fresh 2).add_to_filleventqueue 7 [1, 2] 2).1.add_to_filleventqueue
        8 [3, 4, 5] 2).1.dropped_events =
       ((Audit.fresh 2).add_to_filleventqueue 7 [1, 2] 2).1.dropped_events) :=
  ⟨by decide,
   add_to_filleventqueue_below_max ((Audit.fresh 2).add_to_filleventqueue 7 [1, 2] 2).1
     8 [3, 4, 5] 2 (by decide)⟩

/-- C2: when the fill queue holds `max_audit_queue` events or more,
`add_to_filleventqueue` returns false (a plain return value, nothing is
raised), leaves the fill queue as it was, and increases `dropped_events` by
exactly one. -/
theorem add_to_filleventqueue_at_max (a : Audit) (event_id : Nat) (payload : Bytes)
    (length : Nat) (h : a.max_audit_queue ≤ a.filleventqueue.length) :
    (a.add_to_filleventqueue event_id payload length).2 = false ∧
    (a.add_to_filleventqueue event_id payload length).1.filleventqueue =
      a.filleventqueue ∧
    (a.add_to_filleventqueue event_id payload length).1.filleventqueue.length =
      a.filleventqueue.length ∧
    (a.add_to_filleventqueue event_id payload length).1.dropped_events =
      a.dropped_events + 1 := by
  have h' : ¬ a.filleventqueue.length < a.max_audit_queue := Nat.not_lt.mpr h
  simp [Audit.add_to_filleventqueue, h']

/-- Witness of C2: a full queue of capacity 1 drops the next event. -/
theorem add_to_filleventqueue_at_max_witness :
    ((Audit.fresh 1).add_to_filleventqueue 7 [1, 2] 2).1.max_audit_queue ≤
      ((Audit.fresh 1).add_to_filleventqueue 7 [1, 2] 2).1.filleventqueue.length ∧
    ((((Audit.fresh 1).add_to_filleventqueue 7 [1, 2] 2).1.add_to_filleventqueue
        8 [3] 1).2 = false ∧
     (((Audit.fresh 1).add_to_filleventqueue 7 [1, 2] 2).1.add_to_filleventqueue
        8 [3] 1).1.filleventqueue =
       ((Audit.fresh 1).add_to_filleventqueue 7 [1, 2] 2).1.filleventqueue ∧
     (((Audit.fresh 1).add_to_filleventqueue 7 [1, 2] 2).1.add_to_filleventqueue
        8 [3] 1).1.filleventqueue.length =
       ((Audit.fresh 1).add_to_filleventqueue 7 [1, 2] 2).1.filleventqueue.length ∧
     (((Audit.fresh 1).add_to_filleventqueue 7 [1, 2] 2).1.add_to_filleventqueue
        8 [3] 1).1.dropped_events =
       ((Audit.fresh 1).add_to_filleventqueue 7 [1, 2] 2).1.dropped_events + 1) :=
  ⟨by decide,
   add_to_filleventqueue_at_max ((Audit.fresh 1).add_to_filleventqueue 7 [1, 2] 2).1
     8 [3] 1 (by decide)⟩

/-- C3, as stated, fails: from an empty queue with `max_audit_queue = 2`, two
accepted events followed by one `add_reconfigure_event` leave three events in
the fill queue. -/
theorem fill_queue_exceeds_max :
    ((Audit.fresh 2).run
      [ProducerOp.add 1 [65] 1, ProducerOp.add 2 [66] 1,
       ProducerOp.reconfigure [47] 0]).filleventqueue.length = 3 ∧
    ¬ ((Audit.fresh 2).run
      [ProducerOp.add 1 [65] 1, ProducerOp.add 2 [66] 1,
       ProducerOp.reconfigure [47] 0]).filleventqueue.length ≤
        (Audit.fresh 2).max_audit_queue := by
  decide

/-- C3, amended: starting from a fill queue within the maximum (an empty one
in particular), after every finite sequence of producer calls the fill queue
holds at most `max_audit_queue` events plus one for each
`add_reconfigure_event` call of the sequence; and the maximum itself is never
changed by a producer. -/
theorem fill_queue_bounded (a : Audit) (ops : List ProducerOp)
    (h : a.filleventqueue.length ≤ a.max_audit_queue) :
    (a.run ops).filleventqueue.length ≤
      a.max_audit_queue + ops.countP ProducerOp.isReconfigure ∧
    (a.run ops).max_audit_queue = a.max_audit_queue := by
  have := run_length_le ops a 0 (by simpa using h)
  exact ⟨by simpa using this, run_max_audit_queue ops a⟩

/-- Witness of C3 amended: three `add` calls on an empty queue of capacity 2. -/
theorem fill_queue_bounded_witness :
    (Audit.fresh 2).filleventqueue.length ≤ (Audit.fresh 2).max_audit_queue ∧
    (((Audit.fresh 2).run
      [ProducerOp.add 1 [65] 1, ProducerOp.add 2 [66] 1,
       ProducerOp.add 3 [67] 1]).filleventqueue.length ≤
      (Audit.fresh 2).max_audit_queue +
        [ProducerOp.add 1 [65] 1, ProducerOp.add 2 [66] 1,
         ProducerOp.add 3 [67] 1].countP ProducerOp.isReconfigure ∧
     ((Audit.fresh 2).run
      [ProducerOp.add 1 [65] 1, ProducerOp.add 2 [66] 1,
       ProducerOp.add 3 [67] 1]).max_audit_queue = (Audit.fresh 2).max_audit_queue) :=
  ⟨by decide, fill_queue_bounded (Audit.fresh 2) _ (by decide)⟩

/-- C4: the fill queue is FIFO.  After any sequence of producer calls the fill
queue, read front to back, is the queue before the calls followed by exactly
the accepted events (those whose call returned true) in the order of their
calls; and the `front()`/`pop()` drain loop hands the events out in that same
order. -/
theorem fill_queue_fifo (a : Audit) (ops : List ProducerOp) :
    (a.run ops).filleventqueue = a.filleventqueue ++ a.accepted ops ∧
    ((a.run ops).clear_events_queues).2.2 = a.filleventqueue ++ a.accepted ops ∧
    ((a.run ops).clear_events_queues).1.filleventqueue = [] := by
  refine ⟨run_filleventqueue ops a, ?_, rfl⟩
  simp [Audit.clear_events_queues, drainOrder_eq, run_filleventqueue]

end Auditd

/-! ## The bucket create/remove command context -/

namespace Mcbp

namespace CreateRemoveBucketCommandContext

/-- Creating, starting and scheduling a task never ends with `ENGINE_SUCCESS`. -/
theorem submit_ne_success (env : Env) (c : CreateRemoveBucketCommandContext) (t : Task) :
    (submit env c t).2 ≠ Outcome.ret ENGINE_ERROR_CODE.ENGINE_SUCCESS := by
  unfold submit
  cases env.make_shared <;> cases env.start <;> cases env.schedule <;> simp

/-- The Create handler never ends with `ENGINE_SUCCESS`. -/
theorem create_ne_success (env : Env) (c : CreateRemoveBucketCommandContext) :
    (create env c).2 ≠ Outcome.ret ENGINE_ERROR_CODE.ENGINE_SUCCESS := by
  unfold create
  exact submit_ne_success env c _

/-- The Remove handler never ends with `ENGINE_SUCCESS`. -/
theorem remove_ne_success (env : Env) (c : CreateRemoveBucketCommandContext) :
    (remove env c).2 ≠ Outcome.ret ENGINE_ERROR_CODE.ENGINE_SUCCESS := by
  unfold remove
  by_cases h : (env.parse_config (c_str c.request.value)).1 ≠ 0
  · simp [h]
  · simp only [h, if_false]
    exact submit_ne_success env c _

/-- The loop, entered in state `Done`, writes the response and returns. -/
theorem stepLoop_Done (env : Env) (c : CreateRemoveBucketCommandContext) (n : Nat)
    (h : c.state = State.Done) :
    stepLoop env (n + 1) c =
      some (mcbp_write_packet c
        protocol_binary_response_status.PROTOCOL_BINARY_RESPONSE_SUCCESS,
        Outcome.ret ENGINE_ERROR_CODE.ENGINE_SUCCESS) := by
  simp [stepLoop, switchState, h]

/-- A pass whose handler does not end with `ENGINE_SUCCESS` leaves the loop. -/
theorem stepLoop_leave (env : Env) (c c' : CreateRemoveBucketCommandContext)
    (r : Outcome) (n : Nat) (h : switchState env c = (c', Flow.handler r))
    (hr : r ≠ Outcome.ret ENGINE_ERROR_CODE.ENGINE_SUCCESS) :
    stepLoop env (n + 1) c = some (c', r) := by
  cases r with
  | thrown e => simp [stepLoop, h]
  | ret code =>
    cases code <;> first | exact absurd rfl hr | simp [stepLoop, h]

/-- A pass whose handler ends with `ENGINE_SUCCESS` is followed by another. -/
theorem stepLoop_again (env : Env) (c c' : CreateRemoveBucketCommandContext) (n : Nat)
    (h : switchState env c =
      (c', Flow.handler (Outcome.ret ENGINE_ERROR_CODE.ENGINE_SUCCESS))) :
    stepLoop env (n + 1) c = stepLoop env n c' := by
  simp [stepLoop, h]

/-- The loop entered in state `Create` runs the Create handler once. -/
theorem stepLoop_Create (env : Env) (c : CreateRemoveBucketCommandContext) (n : Nat)
    (h : c.state = State.Create) :
    stepLoop env (n + 1) c =
      some ({ (create env c).1 with
                handlers := (create env c).1.handlers ++ [(State.Create, (create env c).2)] },
            (create env c).2) :=
  stepLoop_leave env c _ _ n (by simp [switchState, h, record]) (create_ne_success env c)

/-- The loop entered in state `Remove` runs the Remove handler once. -/
theorem stepLoop_Remove (env : Env) (c : CreateRemoveBucketCommandContext) (n : Nat)
    (h : c.state = State.Remove) :
    stepLoop env (n + 1) c =
      some ({ (remove env c).1 with
                handlers := (remove env c).1.handlers ++ [(State.Remove, (remove env c).2)] },
            (remove env c).2) :=
  stepLoop_leave env c _ _ n (by simp [switchState, h, record]) (remove_ne_success env c)

/-- The loop entered in state `Initial` runs the Initial handler and goes on
in the state that handler chose. -/
theorem stepLoop_Initial (env : Env) (c : CreateRemoveBucketCommandContext) (n : Nat)
    (h : c.state = State.Initial) :
    stepLoop env (n + 1) c =
      stepLoop env n
        { c with
          state := if c.request.opcode = Opcode.CreateBucket then State.Create
                   else State.Remove,
          handlers := c.handlers ++
            [(State.Initial, Outcome.ret ENGINE_ERROR_CODE.ENGINE_SUCCESS)] } := by
  apply stepLoop_again
  by_cases hop : c.request.opcode = Opcode.CreateBucket <;>
    simp [switchState, h, record, initial, hop]

end CreateRemoveBucketCommandContext

end Mcbp

namespace Mcbp

namespace CreateRemoveBucketCommandContext

open ENGINE_ERROR_CODE State Outcome Opcode protocol_binary_response_status

/-- The four ways in which creating, starting and scheduling a task ends. -/
theorem submit_cases (env : Env) (c : CreateRemoveBucketCommandContext) (t : Task) :
    (∃ e, env.make_shared = some e ∧ submit env c t = (c, thrown e)) ∨
    (∃ e, env.make_shared = none ∧ env.start = some e ∧
      submit env c t = ({ c with task := some t }, thrown e)) ∨
    (∃ e, env.make_shared = none ∧ env.start = none ∧ env.schedule = some e ∧
      submit env c t =
        ({ c with task := some t, started := c.started ++ [t] }, thrown e)) ∨
    (env.make_shared = none ∧ env.start = none ∧ env.schedule = none ∧
      submit env c t =
        ({ c with task := some t, started := c.started ++ [t],
                  scheduled := c.scheduled ++ [t], state := Done },
         ret ENGINE_EWOULDBLOCK)) := by
  unfold submit
  cases env.make_shared <;> cases env.start <;> cases env.schedule <;> simp

/-- What `submit` leaves alone and what it can change. -/
theorem submit_frame (env : Env) (c : CreateRemoveBucketCommandContext) (t : Task) :
    (submit env c t).1.request = c.request ∧
    (submit env c t).1.packets = c.packets ∧
    (submit env c t).1.handlers = c.handlers ∧
    ((submit env c t).1.state = c.state ∨ (submit env c t).1.state = Done) ∧
    ((submit env c t).1.scheduled = c.scheduled ∨
      ∃ t', (submit env c t).1.scheduled = c.scheduled ++ [t']) ∧
    ((submit env c t).2 = ret ENGINE_EWOULDBLOCK →
      ∃ t', (submit env c t).1.scheduled = c.scheduled ++ [t'] ∧
        (submit env c t).1.started = c.started ++ [t'] ∧
        (submit env c t).1.task = some t' ∧ (submit env c t).1.state = Done) := by
  rcases submit_cases env c t with ⟨e, _, h⟩ | ⟨e, _, _, h⟩ | ⟨e, _, _, _, h⟩ | ⟨_, _, _, h⟩ <;>
    simp [h]

/-- What the Create handler leaves alone and what it can change. -/
theorem create_frame (env : Env) (c : CreateRemoveBucketCommandContext) :
    (create env c).1.request = c.request ∧
    (create env c).1.packets = c.packets ∧
    (create env c).1.handlers = c.handlers ∧
    ((create env c).1.state = c.state ∨ (create env c).1.state = Done) ∧
    ((create env c).1.scheduled = c.scheduled ∨
      ∃ t', (create env c).1.scheduled = c.scheduled ++ [t']) ∧
    ((create env c).2 = ret ENGINE_EWOULDBLOCK →
      ∃ t', (create env c).1.scheduled = c.scheduled ++ [t'] ∧
        (create env c).1.started = c.started ++ [t'] ∧
        (create env c).1.task = some t' ∧ (create env c).1.state = Done) := by
  unfold create
  exact submit_frame env c _

/-- What the Remove handler leaves alone and what it can change. -/
theorem remove_frame (env : Env) (c : CreateRemoveBucketCommandContext) :
    (remove env c).1.request = c.request ∧
    (remove env c).1.packets = c.packets ∧
    (remove env c).1.handlers = c.handlers ∧
    ((remove env c).1.state = c.state ∨ (remove env c).1.state = Done) ∧
    ((remove env c).1.scheduled = c.scheduled ∨
      ∃ t', (remove env c).1.scheduled = c.scheduled ++ [t']) ∧
    ((remove env c).2 = ret ENGINE_EWOULDBLOCK →
      ∃ t', (remove env c).1.scheduled = c.scheduled ++ [t'] ∧
        (remove env c).1.started = c.started ++ [t'] ∧
        (remove env c).1.task = some t' ∧ (remove env c).1.state = Done) := by
  unfold remove
  by_cases h : (env.parse_config (c_str c.request.value)).1 ≠ 0
  · simp [h]
  · simp only [h, if_false]
    exact submit_frame env c _

/-- In state `Done`, `step()` writes the response and returns. -/
theorem step_Done (env : Env) (c : CreateRemoveBucketCommandContext) (n : Nat)
    (h : c.state = Done) :
    step env (n + 1) c =
      some ({ c with packets := c.packets ++ [PROTOCOL_BINARY_RESPONSE_SUCCESS] },
            ret ENGINE_SUCCESS) := by
  simp [step, stepLoop_Done env c n h, mcbp_write_packet, catch_bad_alloc]

/-- In state `Create`, `step()` runs the Create handler once. -/
theorem step_Create (env : Env) (c : CreateRemoveBucketCommandContext) (n : Nat)
    (h : c.state = Create) :
    step env (n + 1) c =
      some ({ (create env c).1 with
                handlers := c.handlers ++ [(Create, (create env c).2)] },
            catch_bad_alloc (create env c).2) := by
  simp [step, stepLoop_Create env c n h, (create_frame env c).2.2.1]

/-- In state `Remove`, `step()` runs the Remove handler once. -/
theorem step_Remove (env : Env) (c : CreateRemoveBucketCommandContext) (n : Nat)
    (h : c.state = Remove) :
    step env (n + 1) c =
      some ({ (remove env c).1 with
                handlers := c.handlers ++ [(Remove, (remove env c).2)] },
            catch_bad_alloc (remove env c).2) := by
  simp [step, stepLoop_Remove env c n h, (remove_frame env c).2.2.1]

/-- In state `Initial`, `step()` runs the Initial handler and goes on, in the
same call, in the state that handler chose. -/
theorem step_Initial (env : Env) (c : CreateRemoveBucketCommandContext) (n : Nat)
    (h : c.state = Initial) :
    step env (n + 2) c =
      step env (n + 1)
        { c with
          state := if c.request.opcode = CreateBucket then Create else Remove,
          handlers := c.handlers ++ [(Initial, ret ENGINE_SUCCESS)] } := by
  simp [step, stepLoop_Initial env c (n + 1) h]

/-- The outcome of `step()`: two passes through the loop are always enough, and
further fuel changes nothing. -/
theorem step_total (env : Env) (c : CreateRemoveBucketCommandContext) (n : Nat) :
    ∃ c' r, step env (n + 2) c = some (c', r) ∧ step env 2 c = some (c', r) := by
  rcases hs : c.state with _ | _ | _ | _
  · rw [step_Initial env c n hs, step_Initial env c 0 hs]
    by_cases hop : c.request.opcode = CreateBucket
    · rw [step_Create env _ n (by simp [hop]), step_Create env _ 0 (by simp [hop])]
      exact ⟨_, _, rfl, rfl⟩
    · rw [step_Remove env _ n (by simp [hop]), step_Remove env _ 0 (by simp [hop])]
      exact ⟨_, _, rfl, rfl⟩
  · rw [step_Create env c _ hs, step_Create env c _ hs]; exact ⟨_, _, rfl, rfl⟩
  · rw [step_Remove env c _ hs, step_Remove env c _ hs]; exact ⟨_, _, rfl, rfl⟩
  · rw [step_Done env c _ hs, step_Done env c _ hs]; exact ⟨_, _, rfl, rfl⟩

end CreateRemoveBucketCommandContext
end Mcbp

namespace Mcbp

namespace CreateRemoveBucketCommandContext

open ENGINE_ERROR_CODE State Outcome Opcode protocol_binary_response_status

/-- Catching `std::bad_alloc` never produces `ENGINE_SUCCESS` or
`ENGINE_EWOULDBLOCK` that was not there before. -/
theorem catch_bad_alloc_cases (r : Outcome) :
    (r = thrown Exception.bad_alloc ∧ catch_bad_alloc r = ret ENGINE_ENOMEM) ∨
    (r ≠ thrown Exception.bad_alloc ∧ catch_bad_alloc r = r) := by
  cases r with
  | ret code => right; exact ⟨by simp, rfl⟩
  | thrown e =>
    cases e
    · left; exact ⟨rfl, rfl⟩
    · right; exact ⟨by simp, rfl⟩

/-- When the task is created, started and scheduled without failure, the
Create handler moves to `Done` and returns `ENGINE_EWOULDBLOCK`. -/
theorem create_completes (env : Env) (c : CreateRemoveBucketCommandContext)
    (hmk : env.make_shared = none) (hstart : env.start = none)
    (hsched : env.schedule = none) :
    (create env c).2 = ret ENGINE_EWOULDBLOCK ∧ (create env c).1.state = Done ∧
    (create env c).1.packets = c.packets := by
  simp [create, submit, hmk, hstart, hsched]

/-- C5, as stated, fails: with task start and scheduling not failing but the
construction of the task failing with `std::bad_alloc`, the first `step()` of
a fresh context for a CreateBucket request returns `ENGINE_ENOMEM`, not
`ENGINE_EWOULDBLOCK`, and the context stays in state `Create`. -/
theorem create_flow_enomem_on_construction :
    ({ Env.completing with make_shared := some Exception.bad_alloc } : Env).start = none ∧
    ({ Env.completing with make_shared := some Exception.bad_alloc } : Env).schedule = none ∧
    (fresh Request.createExample).request.opcode = CreateBucket ∧
    step { Env.completing with make_shared := some Exception.bad_alloc } 2
        (fresh Request.createExample) =
      some ({ fresh Request.createExample with
                state := Create,
                handlers := [(Initial, ret ENGINE_SUCCESS),
                             (Create, thrown Exception.bad_alloc)] },
            ret ENGINE_ENOMEM) := by
  decide

/-- C5, amended: for every CreateBucket request whose task construction, task
start and scheduling do not fail, driving a context in state `Initial` (a
fresh one in particular) with `step()` twice returns `ENGINE_EWOULDBLOCK` and
then `ENGINE_SUCCESS`; the first call writes no response packet and the
second writes exactly one, of status SUCCESS. -/
theorem two_phase_create (env1 env2 : Env) (c : CreateRemoveBucketCommandContext)
    (n m : Nat) (hstate : c.state = Initial) (hop : c.request.opcode = CreateBucket)
    (hmk : env1.make_shared = none) (hstart : env1.start = none)
    (hsched : env1.schedule = none) :
    ∃ c1 c2, step env1 (n + 2) c = some (c1, ret ENGINE_EWOULDBLOCK) ∧
      c1.packets = c.packets ∧
      step env2 (m + 1) c1 = some (c2, ret ENGINE_SUCCESS) ∧
      c2.packets = c.packets ++ [PROTOCOL_BINARY_RESPONSE_SUCCESS] := by
  rw [step_Initial env1 c n hstate, step_Create env1 _ n (by simp [hop])]
  obtain ⟨hret, hdone, hpk⟩ := create_completes env1
    { c with
      state := if c.request.opcode = CreateBucket then Create else Remove,
      handlers := c.handlers ++ [(Initial, ret ENGINE_SUCCESS)] } hmk hstart hsched
  rw [hret]
  refine ⟨_, _, rfl, ?_, step_Done env2 _ m ?_, ?_⟩
  · simpa using hpk
  · simpa using hdone
  · simpa using hpk

/-- Witness of C5 amended: the example CreateBucket request with collaborators
that all complete. -/
theorem two_phase_create_witness :
    (fresh Request.createExample).state = Initial ∧
    (fresh Request.createExample).request.opcode = CreateBucket ∧
    Env.completing.make_shared = none ∧ Env.completing.start = none ∧
    Env.completing.schedule = none ∧
    ∃ c1 c2, step Env.completing 2 (fresh Request.createExample) =
        some (c1, ret ENGINE_EWOULDBLOCK) ∧
      c1.packets = (fresh Request.createExample).packets ∧
      step Env.completing 1 c1 = some (c2, ret ENGINE_SUCCESS) ∧
      c2.packets = (fresh Request.createExample).packets ++
        [PROTOCOL_BINARY_RESPONSE_SUCCESS] :=
  ⟨rfl, rfl, rfl, rfl, rfl,
   two_phase_create Env.completing Env.completing (fresh Request.createExample) 0 0
     rfl rfl rfl rfl rfl⟩

end CreateRemoveBucketCommandContext
end Mcbp

namespace Mcbp

namespace CreateRemoveBucketCommandContext

open ENGINE_ERROR_CODE State Outcome Opcode protocol_binary_response_status

/-- The shape of every `step()` call.  Either the call starts in `Done`, or
it ends with the handler of `s` (Create or Remove), which ran on the context
as the earlier passes `pre` left it and ended as `p` says. -/
theorem step_shape (env : Env) (c : CreateRemoveBucketCommandContext) (n : Nat) :
    (c.state = Done ∧
      step env (n + 2) c =
        some ({ c with packets := c.packets ++ [PROTOCOL_BINARY_RESPONSE_SUCCESS] },
              ret ENGINE_SUCCESS)) ∨
    (∃ (pre : List (State × Outcome)) (s : State)
        (p : CreateRemoveBucketCommandContext × Outcome),
      c.state ≠ Done ∧
      step env (n + 2) c =
        some ({ p.1 with handlers := c.handlers ++ pre ++ [(s, p.2)] },
              catch_bad_alloc p.2) ∧
      ((c.state = Initial ∧ pre = [(Initial, ret ENGINE_SUCCESS)] ∧
          s = (if c.request.opcode = CreateBucket then Create else Remove)) ∨
       (c.state = s ∧ pre = [])) ∧
      (s = Create ∨ s = Remove) ∧
      p.1.request = c.request ∧ p.1.packets = c.packets ∧
      (p.1.state = s ∨ p.1.state = Done) ∧
      (p.1.scheduled = c.scheduled ∨ ∃ t, p.1.scheduled = c.scheduled ++ [t]) ∧
      (p.2 = ret ENGINE_EWOULDBLOCK →
        ∃ t, p.1.scheduled = c.scheduled ++ [t] ∧ p.1.started = c.started ++ [t] ∧
          p.1.task = some t ∧ p.1.state = Done) ∧
      p.2 ≠ ret ENGINE_SUCCESS) := by
  rcases hs : c.state with _ | _ | _ | _
  · right
    rw [step_Initial env c n hs]
    by_cases hop : c.request.opcode = CreateBucket
    · rw [step_Create env _ n (by simp [hop])]
      obtain ⟨h1, h2, -, h4, h5, h6⟩ := create_frame env
        { c with
          state := if c.request.opcode = CreateBucket then Create else Remove,
          handlers := c.handlers ++ [(Initial, ret ENGINE_SUCCESS)] }
      refine ⟨[(Initial, ret ENGINE_SUCCESS)], Create, _, by simp, rfl, ?_, by simp,
        h1, h2, ?_, h5, h6, create_ne_success env _⟩
      · left; simp [hop]
      · simpa [hop] using h4
    · rw [step_Remove env _ n (by simp [hop])]
      obtain ⟨h1, h2, -, h4, h5, h6⟩ := remove_frame env
        { c with
          state := if c.request.opcode = CreateBucket then Create else Remove,
          handlers := c.handlers ++ [(Initial, ret ENGINE_SUCCESS)] }
      refine ⟨[(Initial, ret ENGINE_SUCCESS)], Remove, _, by simp, rfl, ?_, by simp,
        h1, h2, ?_, h5, h6, remove_ne_success env _⟩
      · left; simp [hop]
      · simpa [hop] using h4
  · right
    rw [step_Create env c _ hs]
    obtain ⟨h1, h2, -, h4, h5, h6⟩ := create_frame env c
    rw [hs] at h4
    exact ⟨[], Create, _, by simp, by simp, by simp, by simp, h1, h2, h4, h5, h6,
      create_ne_success env c⟩
  · right
    rw [step_Remove env c _ hs]
    obtain ⟨h1, h2, -, h4, h5, h6⟩ := remove_frame env c
    rw [hs] at h4
    exact ⟨[], Remove, _, by simp, by simp, by simp, by simp, h1, h2, h4, h5, h6,
      remove_ne_success env c⟩
  · left
    refine ⟨rfl, ?_⟩
    rw [step_Done env c _ hs, hs]

end CreateRemoveBucketCommandContext
end Mcbp

namespace Mcbp

namespace CreateRemoveBucketCommandContext

open ENGINE_ERROR_CODE State Outcome Opcode protocol_binary_response_status

/-- C6: loop until suspend or done.  Every `step()` call returns (two passes
of the loop suffice, more fuel changes nothing).  `log` is the list of the
handlers the call invoked, in order, each with the way it ended: the first is
the handler of the state the call started in; a call started in `Initial`
invokes the Initial handler and then, in the same call, the Create handler
(opcode CreateBucket) or the Remove handler (any other opcode); every handler
but the last returned `ENGINE_SUCCESS`; and the call returns what the last
handler returned, the first result that is not `ENGINE_SUCCESS` (with
`std::bad_alloc` caught), or else it reached `Done`, wrote the response and
returned `ENGINE_SUCCESS`. -/
theorem step_loops_until_suspend_or_done (env : Env)
    (c : CreateRemoveBucketCommandContext) (n : Nat) :
    ∃ c' r log, step env (n + 2) c = some (c', r) ∧ step env 2 c = some (c', r) ∧
      c'.handlers = c.handlers ++ log ∧
      (∀ e, log.head? = some e → e.1 = c.state) ∧
      (c.state = Initial →
        log.map Prod.fst =
          [Initial, if c.request.opcode = CreateBucket then Create else Remove]) ∧
      (∀ e ∈ log.dropLast, e.2 = ret ENGINE_SUCCESS) ∧
      ((∃ e, log.getLast? = some e ∧ e.2 ≠ ret ENGINE_SUCCESS ∧
          r = catch_bad_alloc e.2) ∨
       ((∀ e ∈ log, e.2 = ret ENGINE_SUCCESS) ∧ c'.state = Done ∧
         c'.packets = c.packets ++ [PROTOCOL_BINARY_RESPONSE_SUCCESS] ∧
         r = ret ENGINE_SUCCESS)) := by
  obtain ⟨c', r, hn, h2⟩ := step_total env c n
  rcases step_shape env c n with
    ⟨hd, hstep⟩ | ⟨pre, s, p, hnd, hstep, hpre, hs, -, -, -, -, -, hne⟩
  · rw [hn] at hstep
    simp only [Option.some.injEq, Prod.mk.injEq] at hstep
    obtain ⟨hc', hr⟩ := hstep
    subst hc' hr
    exact ⟨_, _, [], hn, h2, by simp, by simp, by simp [hd], by simp,
      Or.inr ⟨by simp, hd, rfl, rfl⟩⟩
  · rw [hn] at hstep
    simp only [Option.some.injEq, Prod.mk.injEq] at hstep
    obtain ⟨hc', hr⟩ := hstep
    subst hc' hr
    refine ⟨_, _, pre ++ [(s, p.2)], hn, h2, by simp, ?_, ?_, ?_,
      Or.inl ⟨(s, p.2), by simp, hne, rfl⟩⟩
    · rcases hpre with ⟨hi, hp, -⟩ | ⟨hc, hp⟩ <;> subst hp <;> simp_all
    · rcases hpre with ⟨hi, hp, hs'⟩ | ⟨hc, hp⟩
      · subst hp; intro _; simp [hs']
      · intro hi
        rw [hi] at hc
        rcases hs with h | h <;> rw [h] at hc <;> cases hc
    · rcases hpre with ⟨hi, hp, -⟩ | ⟨hc, hp⟩ <;> subst hp <;> simp

end CreateRemoveBucketCommandContext
end Mcbp

namespace Mcbp

namespace CreateRemoveBucketCommandContext

open ENGINE_ERROR_CODE State Outcome Opcode protocol_binary_response_status

/-- C7: an allocation failure in a handler does not leave `step()`.  Every
`step()` call returns, never with `std::bad_alloc` in flight, and if any
handler invoked during the call (the entries the call added to the handler
history) ended by throwing `std::bad_alloc`, the call returns
`ENGINE_ENOMEM`. -/
theorem step_catches_bad_alloc (env : Env) (c : CreateRemoveBucketCommandContext)
    (n : Nat) :
    ∃ c' r, step env (n + 2) c = some (c', r) ∧
      r ≠ thrown Exception.bad_alloc ∧
      ∀ s, (s, thrown Exception.bad_alloc) ∈ c'.handlers.drop c.handlers.length →
        r = ret ENGINE_ENOMEM := by
  rcases step_shape env c n with
    ⟨-, hstep⟩ | ⟨pre, s, p, -, hstep, hpre, -, -, -, -, -, -, -⟩
  · exact ⟨_, _, hstep, by simp, by simp⟩
  · refine ⟨_, _, hstep, ?_, ?_⟩
    · rcases catch_bad_alloc_cases p.2 with ⟨-, h⟩ | ⟨h1, h2⟩
      · rw [h]; simp
      · rw [h2]; exact h1
    · intro s' hmem
      have hmem' : (s', thrown Exception.bad_alloc) ∈ pre ++ [(s, p.2)] := by
        simpa [List.append_assoc] using hmem
      have hp : p.2 = thrown Exception.bad_alloc := by
        rcases hpre with ⟨-, hp, -⟩ | ⟨-, hp⟩ <;> subst hp <;> simp at hmem' <;>
          exact hmem'.2.symm
      rw [hp]; rfl

/-- Witness of C7: the three places where a handler can fail.  With the
example requests, a `std::bad_alloc` from the construction of the task, from
`start()` or from `schedule` is recorded in the handler history and `step()`
returns `ENGINE_ENOMEM`. -/
theorem step_catches_bad_alloc_witness :
    (∃ c' r,
      step { Env.completing with make_shared := some Exception.bad_alloc } 2
        (fresh Request.createExample) = some (c', r) ∧
      (Create, thrown Exception.bad_alloc) ∈
        c'.handlers.drop (fresh Request.createExample).handlers.length ∧
      r = ret ENGINE_ENOMEM) ∧
    (step { Env.completing with start := some Exception.bad_alloc } 2
        (fresh Request.deleteExample)).map Prod.snd = some (ret ENGINE_ENOMEM) ∧
    (step { Env.completing with schedule := some Exception.bad_alloc } 2
        (fresh Request.createExample)).map Prod.snd = some (ret ENGINE_ENOMEM) ∧
    (step { Env.completing with schedule := some Exception.other_exception } 2
        (fresh Request.createExample)).map Prod.snd =
      some (thrown Exception.other_exception) := by
  refine ⟨?_, by decide, by decide, by decide⟩
  obtain ⟨c', r, h, -, himp⟩ := step_catches_bad_alloc
    { Env.completing with make_shared := some Exception.bad_alloc }
    (fresh Request.createExample) 0
  have hv : step { Env.completing with make_shared := some Exception.bad_alloc } 2
      (fresh Request.createExample) =
      some ({ fresh Request.createExample with
                state := Create,
                handlers := [(Initial, ret ENGINE_SUCCESS),
                             (Create, thrown Exception.bad_alloc)] },
            ret ENGINE_ENOMEM) := by decide
  have hmem : (Create, thrown Exception.bad_alloc) ∈
      c'.handlers.drop (fresh Request.createExample).handlers.length := by
    rw [hv] at h
    simp only [Option.some.injEq, Prod.mk.injEq] at h
    rw [← h.1]
    decide
  exact ⟨c', r, h, hmem, himp Create hmem⟩

/-- A `step()` call that starts in `Initial` with fuel for one pass only does
not finish. -/
theorem step_Initial_one (env : Env) (c : CreateRemoveBucketCommandContext)
    (h : c.state = Initial) : step env 1 c = none := by
  have h1 := stepLoop_Initial env c 0 h
  simp only [Nat.zero_add] at h1
  unfold step
  rw [h1]
  rfl

/-- C8: a `step()` call made in state `Done` writes exactly one response
packet, of status SUCCESS, returns `ENGINE_SUCCESS`, and changes nothing else:
no task is started or scheduled, the task handle and the state `Done` stay.
And `step()` returns `ENGINE_SUCCESS` only through this branch: whenever a
call returns `ENGINE_SUCCESS` it started in `Done` and wrote that one
response. -/
theorem step_in_Done_writes_once (env : Env) (c : CreateRemoveBucketCommandContext)
    (n : Nat) :
    (c.state = Done →
      step env (n + 1) c =
        some ({ c with packets := c.packets ++ [PROTOCOL_BINARY_RESPONSE_SUCCESS] },
              ret ENGINE_SUCCESS)) ∧
    (∀ fuel c', step env fuel c = some (c', ret ENGINE_SUCCESS) →
      c.state = Done ∧
      c' = { c with packets := c.packets ++ [PROTOCOL_BINARY_RESPONSE_SUCCESS] }) := by
  refine ⟨step_Done env c n, ?_⟩
  intro fuel c' hstep
  have key : ∀ (p : CreateRemoveBucketCommandContext × Outcome),
      p.2 ≠ ret ENGINE_SUCCESS → catch_bad_alloc p.2 ≠ ret ENGINE_SUCCESS := by
    intro p hp
    rcases catch_bad_alloc_cases p.2 with ⟨-, h⟩ | ⟨-, h⟩
    · rw [h]; simp
    · rw [h]; exact hp
  match fuel, hstep with
  | 0, hstep => simp [step, stepLoop] at hstep
  | 1, hstep =>
    rcases hs : c.state with _ | _ | _ | _
    · rw [step_Initial_one env c hs] at hstep; cases hstep
    · rw [step_Create env c 0 hs] at hstep
      simp only [Option.some.injEq, Prod.mk.injEq] at hstep
      exact absurd hstep.2 (key _ (create_ne_success env c))
    · rw [step_Remove env c 0 hs] at hstep
      simp only [Option.some.injEq, Prod.mk.injEq] at hstep
      exact absurd hstep.2 (key _ (remove_ne_success env c))
    · rw [step_Done env c 0 hs] at hstep
      simp only [Option.some.injEq, Prod.mk.injEq, and_true] at hstep
      exact ⟨rfl, by rw [← hstep, hs]⟩
  | k + 2, hstep =>
    rcases step_shape env c k with
      ⟨hd, h⟩ | ⟨pre, s, p, -, h, -, -, -, -, -, -, -, hne⟩
    · rw [h] at hstep
      simp only [Option.some.injEq, Prod.mk.injEq, and_true] at hstep
      exact ⟨hd, hstep.symm⟩
    · rw [h] at hstep
      simp only [Option.some.injEq, Prod.mk.injEq] at hstep
      exact absurd hstep.2 (key _ hne)

/-- Witness of C8: after the first `step()` of the example create flow the
context is in `Done`; the next `step()` writes the one response, and the first
call, which started in `Initial`, did not return `ENGINE_SUCCESS`. -/
theorem step_in_Done_writes_once_witness :
    ({ fresh Request.createExample with state := Done }).state = Done ∧
    step Env.completing 1 { fresh Request.createExample with state := Done } =
      some ({ fresh Request.createExample with
                state := Done, packets := [PROTOCOL_BINARY_RESPONSE_SUCCESS] },
            ret ENGINE_SUCCESS) ∧
    (step Env.completing 2 (fresh Request.createExample)).map Prod.snd ≠
      some (ret ENGINE_SUCCESS) :=
  ⟨rfl,
   (step_in_Done_writes_once Env.completing
      { fresh Request.createExample with state := Done } 0).1 rfl,
   by decide⟩

end CreateRemoveBucketCommandContext
end Mcbp

namespace Mcbp

namespace CreateRemoveBucketCommandContext

open ENGINE_ERROR_CODE State Outcome Opcode protocol_binary_response_status

/-- C9: every `step()` call returns and hands at most one task to the executor
pool; and whenever it returns `ENGINE_EWOULDBLOCK`, exactly one task `t` was
started and scheduled during the call, the task handle of the context refers
to `t`, and the state is `Done`. -/
theorem step_schedules_at_most_one (env : Env)
    (c : CreateRemoveBucketCommandContext) (n : Nat) :
    ∃ c' r, step env (n + 2) c = some (c', r) ∧
      (c'.scheduled = c.scheduled ∨ ∃ t, c'.scheduled = c.scheduled ++ [t]) ∧
      (r = ret ENGINE_EWOULDBLOCK →
        ∃ t, c'.scheduled = c.scheduled ++ [t] ∧ c'.started = c.started ++ [t] ∧
          c'.task = some t ∧ c'.state = Done) := by
  rcases step_shape env c n with
    ⟨-, hstep⟩ | ⟨pre, s, p, -, hstep, -, -, -, -, -, hsched, hblock, -⟩
  · exact ⟨_, _, hstep, Or.inl rfl, by simp⟩
  · refine ⟨_, _, hstep, hsched, ?_⟩
    intro hr
    have hp : p.2 = ret ENGINE_EWOULDBLOCK := by
      rcases catch_bad_alloc_cases p.2 with ⟨-, h⟩ | ⟨-, h⟩
      · rw [h] at hr; simp at hr
      · rw [h] at hr; exact hr
    exact hblock hp

/-- C10: the state machine follows Initial -> Create|Remove -> Done.  The
Initial handler returns `ENGINE_SUCCESS` and sets the state to `Create`
exactly when the opcode is CreateBucket and to `Remove` for every other
opcode; the Create and Remove handlers leave the state unchanged or move it
to `Done`; no pass through the switch of `step()` ends in `Initial` or leaves
`Done`, and neither does a whole `step()` call. -/
theorem state_machine_transitions (env : Env) (c : CreateRemoveBucketCommandContext)
    (n : Nat) :
    (initial c).2 = ret ENGINE_SUCCESS ∧
    ((initial c).1.state = Create ↔ c.request.opcode = CreateBucket) ∧
    ((initial c).1.state = Remove ↔ c.request.opcode ≠ CreateBucket) ∧
    ((create env c).1.state = c.state ∨ (create env c).1.state = Done) ∧
    ((remove env c).1.state = c.state ∨ (remove env c).1.state = Done) ∧
    (switchState env c).1.state ≠ Initial ∧
    (c.state = Done → (switchState env c).1.state = Done) ∧
    ∃ c' r, step env (n + 2) c = some (c', r) ∧ c'.state ≠ Initial ∧
      (c.state = Done → c'.state = Done) := by
  have hc := (create_frame env c).2.2.2.1
  have hr := (remove_frame env c).2.2.2.1
  refine ⟨?_, ?_, ?_, hc, hr, ?_, ?_, ?_⟩
  · by_cases hop : c.request.opcode = CreateBucket <;> simp [initial, hop]
  · by_cases hop : c.request.opcode = CreateBucket <;> simp [initial, hop]
  · by_cases hop : c.request.opcode = CreateBucket <;> simp [initial, hop]
  · rcases hs : c.state with _ | _ | _ | _
    · by_cases hop : c.request.opcode = CreateBucket <;>
        simp [switchState, hs, record, initial, hop]
    · rw [hs] at hc
      rcases hc with h | h <;> simp [switchState, hs, record, h]
    · rw [hs] at hr
      rcases hr with h | h <;> simp [switchState, hs, record, h]
    · simp [switchState, hs, mcbp_write_packet]
  · intro hs
    simp [switchState, hs, mcbp_write_packet]
  · rcases step_shape env c n with
      ⟨hd, hstep⟩ | ⟨pre, s, p, hnd, hstep, -, hs, -, -, hst, -, -, -⟩
    · exact ⟨_, _, hstep, by simp [hd], fun _ => hd⟩
    · refine ⟨_, _, hstep, ?_, fun h => absurd h hnd⟩
      rcases hst with h | h <;> rcases hs with h' | h' <;> simp [h, h']

end CreateRemoveBucketCommandContext
end Mcbp

/-! ## Shutdown and clean-up of the audit daemon -/

namespace Auditd

/-- C16: `terminate_consumer_thread` sets `terminate_audit_daemon` on every
call, and the flag is already set when `events_arrived` is broadcast; the call
returns true exactly when the consumer thread was marked running and
`cb_join_thread` returned 0, and then `consumer_thread_running` is false
afterwards, so that a second call after a successful one returns false
whatever `cb_join_thread` would return. -/
theorem terminate_consumer_thread_spec (a : Audit) (cb_join_thread : Int) :
    (a.terminate_consumer_thread cb_join_thread).audit.terminate_audit_daemon = true ∧
    (a.terminate_consumer_thread cb_join_thread).flag_at_broadcast = true ∧
    ((a.terminate_consumer_thread cb_join_thread).returned = true ↔
      a.consumer_thread_running = true ∧ cb_join_thread = 0) ∧
    ((a.terminate_consumer_thread cb_join_thread).returned = true →
      (a.terminate_consumer_thread cb_join_thread).audit.consumer_thread_running = false) ∧
    (∀ second_join : Int,
      (a.terminate_consumer_thread cb_join_thread).returned = true →
      ((a.terminate_consumer_thread cb_join_thread).audit.terminate_consumer_thread
        second_join).returned = false) := by
  unfold Audit.terminate_consumer_thread
  cases hr : a.consumer_thread_running <;>
    by_cases hj : cb_join_thread = 0 <;> simp [hr, hj]

/-- Witness of C16: a running consumer whose join succeeds; the first call
returns true and the second false. -/
theorem terminate_consumer_thread_spec_witness :
    (({ Audit.fresh 2 with consumer_thread_running := true } : Audit).terminate_consumer_thread
      0).returned = true ∧
    ((({ Audit.fresh 2 with consumer_thread_running := true } : Audit).terminate_consumer_thread
      0).audit.terminate_consumer_thread 0).returned = false :=
  ⟨by decide,
   (terminate_consumer_thread_spec { Audit.fresh 2 with consumer_thread_running := true }
      0).2.2.2.2 0 (by decide)⟩

/-- C17: `clean_up` tries to terminate the consumer thread only if
`terminate_audit_daemon` is not set.  With the flag set it returns true and
changes nothing; with the flag unset and a successful termination it returns
true and the events map and both queues are empty; with the flag unset and a
failed termination it returns false and the events map and both queues are as
before. -/
theorem clean_up_spec (a : Audit) (cb_join_thread : Int) (cb_thread_self : Nat) :
    (a.terminate_audit_daemon = true →
      a.clean_up cb_join_thread cb_thread_self = (a, true)) ∧
    (a.terminate_audit_daemon = false →
      (a.terminate_consumer_thread cb_join_thread).returned = true →
      (a.clean_up cb_join_thread cb_thread_self).2 = true ∧
      (a.clean_up cb_join_thread cb_thread_self).1.events = [] ∧
      (a.clean_up cb_join_thread cb_thread_self).1.filleventqueue = [] ∧
      (a.clean_up cb_join_thread cb_thread_self).1.processeventqueue = []) ∧
    (a.terminate_audit_daemon = false →
      (a.terminate_consumer_thread cb_join_thread).returned = false →
      (a.clean_up cb_join_thread cb_thread_self).2 = false ∧
      (a.clean_up cb_join_thread cb_thread_self).1.events = a.events ∧
      (a.clean_up cb_join_thread cb_thread_self).1.filleventqueue = a.filleventqueue ∧
      (a.clean_up cb_join_thread cb_thread_self).1.processeventqueue =
        a.processeventqueue) := by
  refine ⟨?_, ?_, ?_⟩
  · intro h
    simp [Audit.clean_up, h]
  · intro h ht
    simp [Audit.clean_up, h, ht, Audit.clear_events_map, Audit.clear_events_queues]
  · intro h ht
    have hframe : (a.terminate_consumer_thread cb_join_thread).audit.events = a.events ∧
        (a.terminate_consumer_thread cb_join_thread).audit.filleventqueue =
          a.filleventqueue ∧
        (a.terminate_consumer_thread cb_join_thread).audit.processeventqueue =
          a.processeventqueue := by
      unfold Audit.terminate_consumer_thread
      cases a.consumer_thread_running <;> by_cases hj : cb_join_thread = 0 <;> simp [hj]
    simp [Audit.clean_up, h, ht, hframe]

/-- Witness of C17: an audit object with one descriptor, one queued event and a
running consumer, cleaned up with a successful and with a failed join, and
cleaned up again after the flag was set. -/
theorem clean_up_spec_witness :
    (({ Audit.fresh 2 with
          consumer_thread_running := true,
          events := [(1, { id := 1, name := [], description := [], sync := false,
                           enabled := true })],
          filleventqueue := [Event.event 1 [65]] } : Audit).clean_up 0 9).2 = true ∧
    (({ Audit.fresh 2 with
          consumer_thread_running := true,
          events := [(1, { id := 1, name := [], description := [], sync := false,
                           enabled := true })],
          filleventqueue := [Event.event 1 [65]] } : Audit).clean_up 0 9).1.events = [] ∧
    (({ Audit.fresh 2 with
          consumer_thread_running := true,
          events := [(1, { id := 1, name := [], description := [], sync := false,
                           enabled := true })],
          filleventqueue := [Event.event 1 [65]] } : Audit).clean_up 0 9).1.filleventqueue
      = [] ∧
    (({ Audit.fresh 2 with
          consumer_thread_running := true,
          events := [(1, { id := 1, name := [], description := [], sync := false,
                           enabled := true })],
          filleventqueue := [Event.event 1 [65]] } : Audit).clean_up 0 9).1.processeventqueue
      = [] :=
  (clean_up_spec
    { Audit.fresh 2 with
        consumer_thread_running := true,
        events := [(1, { id := 1, name := [], description := [], sync := false,
                         enabled := true })],
        filleventqueue := [Event.event 1 [65]] } 0 9).2.1 (by decide) (by decide)

end Auditd

/-! ## The create/remove context: task result and configuration errors -/

namespace Mcbp

namespace CreateRemoveBucketCommandContext

open ENGINE_ERROR_CODE State Outcome Opcode protocol_binary_response_status

/-- C12: for a request on the remove path (the context in `Remove`, or in
`Initial` with an opcode other than CreateBucket) whose value `parse_config`
rejects with a non-zero return value, `step()` returns `ENGINE_EINVAL`; no
task is created (the task handle is as before), none is started or scheduled,
no response packet is written, and the state is `Remove`, not `Done`. -/
theorem remove_rejects_bad_config (env : Env) (c : CreateRemoveBucketCommandContext)
    (n : Nat)
    (hpath : (c.state = Initial ∧ c.request.opcode ≠ CreateBucket) ∨ c.state = Remove)
    (hparse : (env.parse_config (c_str c.request.value)).1 ≠ 0) :
    ∃ c', step env (n + 2) c = some (c', ret ENGINE_EINVAL) ∧
      c'.state = Remove ∧ c'.task = c.task ∧ c'.started = c.started ∧
      c'.scheduled = c.scheduled ∧ c'.packets = c.packets ∧
      c'.request = c.request := by
  rcases hpath with ⟨hs, hop⟩ | hs
  · rw [step_Initial env c n hs, step_Remove env _ n (by simp [hop])]
    simp [remove, hparse, hop, catch_bad_alloc]
  · rw [step_Remove env c _ hs]
    simp [remove, hparse, hs, catch_bad_alloc]

/-- Witness of C12: the example DeleteBucket request with a `parse_config`
that rejects every configuration. -/
theorem remove_rejects_bad_config_witness :
    (((fresh Request.deleteExample).state = Initial ∧
        (fresh Request.deleteExample).request.opcode ≠ CreateBucket) ∨
      (fresh Request.deleteExample).state = Remove) ∧
    (({ Env.completing with parse_config := fun _ => (-1, false) } : Env).parse_config
      (c_str (fresh Request.deleteExample).request.value)).1 ≠ 0 ∧
    ∃ c', step { Env.completing with parse_config := fun _ => (-1, false) } 2
        (fresh Request.deleteExample) = some (c', ret ENGINE_EINVAL) ∧
      c'.state = Remove ∧ c'.task = (fresh Request.deleteExample).task ∧
      c'.started = (fresh Request.deleteExample).started ∧
      c'.scheduled = (fresh Request.deleteExample).scheduled ∧
      c'.packets = (fresh Request.deleteExample).packets ∧
      c'.request = (fresh Request.deleteExample).request :=
  ⟨Or.inl ⟨rfl, by decide⟩, by decide,
   remove_rejects_bad_config { Env.completing with parse_config := fun _ => (-1, false) }
     (fresh Request.deleteExample) 0 (Or.inl ⟨rfl, by decide⟩) (by decide)⟩

end CreateRemoveBucketCommandContext

end Mcbp

/-! ## The DCP buffer acknowledgement executor -/

namespace Mcbp

open ENGINE_ERROR_CODE McbpStateMachineState

/-- What lines 23-48 of the executor leave alone and what they reset: the
connection state, the `setState` and `sendResponse` histories and the request
are untouched; the stored status is `ENGINE_SUCCESS` and the would-block flag
is false when the `switch` is reached. -/
theorem dcp_result_frame (env : DcpEnv) (cookie : Cookie) :
    (dcp_buffer_acknowledgement_result env cookie).1.connection_state =
      cookie.connection_state ∧
    (dcp_buffer_acknowledgement_result env cookie).1.set_state_calls =
      cookie.set_state_calls ∧
    (dcp_buffer_acknowledgement_result env cookie).1.responses = cookie.responses ∧
    (dcp_buffer_acknowledgement_result env cookie).1.request = cookie.request ∧
    (dcp_buffer_acknowledgement_result env cookie).1.ewouldblock = false ∧
    (dcp_buffer_acknowledgement_result env cookie).1.aiostat = ENGINE_SUCCESS := by
  unfold dcp_buffer_acknowledgement_result
  by_cases h1 : cookie.aiostat = ENGINE_SUCCESS <;>
    by_cases h2 : env.haveDcpPrivilege = ENGINE_SUCCESS <;> simp [h1, h2]

/-- The `switch` of the executor, case by case, on the cookie `k` and the
remapped result `r` that reach it. -/
theorem dcp_switch_cases (env : DcpEnv) (cookie : Cookie) (k : Cookie)
    (r : ENGINE_ERROR_CODE) (h : dcp_buffer_acknowledgement_result env cookie = (k, r)) :
    (r = ENGINE_SUCCESS ∧
      dcp_buffer_acknowledgement_executor env cookie =
        { k with connection_state := new_cmd,
                 set_state_calls := k.set_state_calls ++ [new_cmd] }) ∨
    (r = ENGINE_DISCONNECT ∧
      dcp_buffer_acknowledgement_executor env cookie =
        { k with connection_state := closing,
                 set_state_calls := k.set_state_calls ++ [closing] }) ∨
    (r = ENGINE_EWOULDBLOCK ∧
      dcp_buffer_acknowledgement_executor env cookie = { k with ewouldblock := true }) ∨
    (r ≠ ENGINE_SUCCESS ∧ r ≠ ENGINE_DISCONNECT ∧ r ≠ ENGINE_EWOULDBLOCK ∧
      dcp_buffer_acknowledgement_executor env cookie =
        { k with responses := k.responses ++ [r] }) := by
  unfold dcp_buffer_acknowledgement_executor
  rw [h]
  cases r <;> simp

end Mcbp

namespace Mcbp

open ENGINE_ERROR_CODE McbpStateMachineState

/-- C13: the executor sets the connection state as a function of the remapped
result only.  It calls `setState(new_cmd)` if and only if the remapped result
is `ENGINE_SUCCESS` and `setState(closing)` if and only if it is
`ENGINE_DISCONNECT`, the connection being in that state afterwards; for every
other result, `ENGINE_EWOULDBLOCK` included, it does not call `setState` and
the connection state is as before. -/
theorem executor_sets_connection_state (env : DcpEnv) (cookie : Cookie) :
    ((dcp_buffer_acknowledgement_executor env cookie).set_state_calls =
        cookie.set_state_calls ++ [new_cmd] ↔
      (dcp_buffer_acknowledgement_result env cookie).2 = ENGINE_SUCCESS) ∧
    ((dcp_buffer_acknowledgement_executor env cookie).set_state_calls =
        cookie.set_state_calls ++ [closing] ↔
      (dcp_buffer_acknowledgement_result env cookie).2 = ENGINE_DISCONNECT) ∧
    ((dcp_buffer_acknowledgement_result env cookie).2 = ENGINE_SUCCESS →
      (dcp_buffer_acknowledgement_executor env cookie).connection_state = new_cmd) ∧
    ((dcp_buffer_acknowledgement_result env cookie).2 = ENGINE_DISCONNECT →
      (dcp_buffer_acknowledgement_executor env cookie).connection_state = closing) ∧
    ((dcp_buffer_acknowledgement_result env cookie).2 ≠ ENGINE_SUCCESS →
      (dcp_buffer_acknowledgement_result env cookie).2 ≠ ENGINE_DISCONNECT →
      (dcp_buffer_acknowledgement_executor env cookie).connection_state =
        cookie.connection_state ∧
      (dcp_buffer_acknowledgement_executor env cookie).set_state_calls =
        cookie.set_state_calls) := by
  obtain ⟨hcs, hsc, -, -, -, -⟩ := dcp_result_frame env cookie
  obtain ⟨k, r, h⟩ : ∃ k r, dcp_buffer_acknowledgement_result env cookie = (k, r) :=
    ⟨_, _, rfl⟩
  rw [h] at hcs hsc ⊢
  simp only at hcs hsc ⊢
  rcases dcp_switch_cases env cookie k r h with ⟨hr, he⟩ | ⟨hr, he⟩ | ⟨hr, he⟩ |
      ⟨h1, h2, h3, he⟩ <;>
    simp [he, hcs, hsc, *]

/-- C14: after the executor returns, the would-block flag of the cookie is
true if and only if the remapped result is `ENGINE_EWOULDBLOCK`, whatever the
flag was on entry; and in that case no response is sent, `setState` is not
called and the connection state is as before. -/
theorem executor_would_block_flag (env : DcpEnv) (cookie : Cookie) :
    ((dcp_buffer_acknowledgement_executor env cookie).ewouldblock = true ↔
      (dcp_buffer_acknowledgement_result env cookie).2 = ENGINE_EWOULDBLOCK) ∧
    ((dcp_buffer_acknowledgement_result env cookie).2 = ENGINE_EWOULDBLOCK →
      (dcp_buffer_acknowledgement_executor env cookie).responses = cookie.responses ∧
      (dcp_buffer_acknowledgement_executor env cookie).connection_state =
        cookie.connection_state ∧
      (dcp_buffer_acknowledgement_executor env cookie).set_state_calls =
        cookie.set_state_calls) := by
  obtain ⟨hcs, hsc, hrs, -, hwb, -⟩ := dcp_result_frame env cookie
  obtain ⟨k, r, h⟩ : ∃ k r, dcp_buffer_acknowledgement_result env cookie = (k, r) :=
    ⟨_, _, rfl⟩
  rw [h] at hcs hsc hrs hwb ⊢
  simp only at hcs hsc hrs hwb ⊢
  rcases dcp_switch_cases env cookie k r h with ⟨hr, he⟩ | ⟨hr, he⟩ | ⟨hr, he⟩ |
      ⟨h1, h2, h3, he⟩ <;>
    simp [he, hcs, hsc, hrs, hwb, *]

/-- Witness of C14: the flag on entry does not matter.  With the engine
answering `ENGINE_EWOULDBLOCK` the flag ends true from false, and with the
engine answering `ENGINE_SUCCESS` it ends false from true. -/
theorem executor_would_block_flag_witness :
    (dcp_buffer_acknowledgement_executor (DcpEnv.answering ENGINE_EWOULDBLOCK)
      (Cookie.example ENGINE_SUCCESS false)).ewouldblock = true ∧
    (dcp_buffer_acknowledgement_executor (DcpEnv.answering ENGINE_SUCCESS)
      (Cookie.example ENGINE_SUCCESS true)).ewouldblock ≠ true :=
  ⟨(executor_would_block_flag (DcpEnv.answering ENGINE_EWOULDBLOCK)
      (Cookie.example ENGINE_SUCCESS false)).1.2 (by decide),
   fun h => absurd ((executor_would_block_flag (DcpEnv.answering ENGINE_SUCCESS)
      (Cookie.example ENGINE_SUCCESS true)).1.1 h) (by decide)⟩

/-- C15: the executor sends at most one response per invocation, and it sends
exactly one, carrying the remapped error code, if and only if the remapped
result is none of `ENGINE_SUCCESS`, `ENGINE_DISCONNECT` and
`ENGINE_EWOULDBLOCK`. -/
theorem executor_sends_at_most_one_response (env : DcpEnv) (cookie : Cookie) :
    ((dcp_buffer_acknowledgement_executor env cookie).responses = cookie.responses ∨
      (dcp_buffer_acknowledgement_executor env cookie).responses =
        cookie.responses ++ [(dcp_buffer_acknowledgement_result env cookie).2]) ∧
    ((dcp_buffer_acknowledgement_executor env cookie).responses =
        cookie.responses ++ [(dcp_buffer_acknowledgement_result env cookie).2] ↔
      (dcp_buffer_acknowledgement_result env cookie).2 ≠ ENGINE_SUCCESS ∧
      (dcp_buffer_acknowledgement_result env cookie).2 ≠ ENGINE_DISCONNECT ∧
      (dcp_buffer_acknowledgement_result env cookie).2 ≠ ENGINE_EWOULDBLOCK) := by
  obtain ⟨-, -, hrs, -, -, -⟩ := dcp_result_frame env cookie
  obtain ⟨k, r, h⟩ : ∃ k r, dcp_buffer_acknowledgement_result env cookie = (k, r) :=
    ⟨_, _, rfl⟩
  rw [h] at hrs ⊢
  simp only at hrs ⊢
  rcases dcp_switch_cases env cookie k r h with ⟨hr, he⟩ | ⟨hr, he⟩ | ⟨hr, he⟩ |
      ⟨h1, h2, h3, he⟩ <;>
    simp [he, hrs, *]

end Mcbp

/-! ## Task durations, the tap queue and the tagged pointer -/

namespace EpEngine

/-- C18: every task class of tasks.h declares a fixed, strictly positive
expected maximum duration that does not depend on the members or constructor
arguments of the task object; in microseconds: FlusherTask 400000, CompactTask
25000000, StatSnap 250000, MultiBGFetcherTask 700000, DeleteAllTask 10000000,
VKeyStatBGFetchTask 250000, SingleBGFetcherTask 250000, WorkLoadMonitor
1000. -/
theorem maxExpectedDuration_fixed :
    (∀ t : GlobalTask, 0 < t.maxExpectedDuration) ∧
    (∀ flusher desc, (GlobalTask.FlusherTask flusher desc).maxExpectedDuration = 400000) ∧
    (∀ bucket ctx cookie desc,
      (GlobalTask.CompactTask bucket ctx cookie desc).maxExpectedDuration = 25000000) ∧
    (∀ runOnce, (GlobalTask.StatSnap runOnce).maxExpectedDuration = 250000) ∧
    (∀ bgfetcher, (GlobalTask.MultiBGFetcherTask bgfetcher).maxExpectedDuration = 700000) ∧
    GlobalTask.DeleteAllTask.maxExpectedDuration = 10000000 ∧
    (∀ key vb seqno cookie desc,
      (GlobalTask.VKeyStatBGFetchTask key vb seqno cookie desc).maxExpectedDuration =
        250000) ∧
    (∀ key vb cookie isMeta init desc,
      (GlobalTask.SingleBGFetcherTask key vb cookie isMeta init desc).maxExpectedDuration =
        250000) ∧
    (∀ muts gets, (GlobalTask.WorkLoadMonitor muts gets).maxExpectedDuration = 1000) := by
  refine ⟨?_, ?_, ?_, ?_, ?_, ?_, ?_, ?_, ?_⟩
  · intro t
    cases t <;> simp [GlobalTask.maxExpectedDuration, milliseconds, seconds]
  all_goals intros; rfl

/-- C19: `addEvent(key)` returns true if and only if the tap queue was empty
immediately before the call, and in every case appends `key` at the tail: the
earlier keys keep their places, the size grows by one, and a key that is
already queued is queued once more; the other members are untouched. -/
theorem addEvent_spec (t : TapConnection) (key : Bytes) :
    ((t.addEvent key).2 = true ↔ t.queue = []) ∧
    (t.addEvent key).1.queue = t.queue ++ [key] ∧
    (t.addEvent key).1.queue.length = t.queue.length + 1 ∧
    (t.addEvent key).1.queue.count key = t.queue.count key + 1 ∧
    (t.addEvent key).1.client = t.client ∧
    (t.addEvent key).1.recordsFetched = t.recordsFetched ∧
    (t.addEvent key).1.pendingFlush = t.pendingFlush := by
  simp [TapConnection.addEvent, List.isEmpty_iff]

/-- C20: pointer and tag of a `TaggedPtr` are independent.  For every pointer
`p` (an address below `2 ^ 48`) and every 16-bit tag `t`, `setTag(t)` makes
`getTag()` return `t` and leaves `get()` unchanged, `set(p)` makes `get()`
return `p` and leaves `getTag()` unchanged, and a `TaggedPtr` constructed from
`p` alone points to `p` and has tag 0. -/
theorem taggedPtr_pointer_and_tag_independent (x : TaggedPtr) (p t : Nat)
    (hp : p < 2 ^ 48) (ht : t < 2 ^ 16) :
    (x.setTag t).getTag = t ∧ (x.setTag t).get = x.get ∧
    (x.set p).get = p ∧ (x.set p).getTag = x.getTag ∧
    (TaggedPtr.ofObject p).get = p ∧ (TaggedPtr.ofObject p).getTag = 0 ∧
    (TaggedPtr.ofObjectAndTag p t).get = p ∧ (TaggedPtr.ofObjectAndTag p t).getTag = t := by
  refine ⟨?_, ?_, ?_, ?_, ?_, ?_, ?_, ?_⟩ <;>
    simp only [TaggedPtr.setTag, TaggedPtr.getTag, TaggedPtr.get, TaggedPtr.set,
      TaggedPtr.ofObject, TaggedPtr.ofObjectAndTag, TaggedPtr.null] <;>
    omega

/-- Witness of C20: the values of `pointerUnaffectedTest` and
`tagUnaffectedTest`, tags 456 and 123, with an object at address
0x7ffe12345678. -/
theorem taggedPtr_pointer_and_tag_independent_witness :
    ((140729204299384 : Nat) < 2 ^ 48 ∧ (456 : Nat) < 2 ^ 16) ∧
    (((TaggedPtr.ofObjectAndTag 0 123).setTag 456).getTag = 456 ∧
     ((TaggedPtr.ofObjectAndTag 0 123).setTag 456).get =
       (TaggedPtr.ofObjectAndTag 0 123).get ∧
     ((TaggedPtr.ofObjectAndTag 0 123).set 140729204299384).get = 140729204299384 ∧
     ((TaggedPtr.ofObjectAndTag 0 123).set 140729204299384).getTag =
       (TaggedPtr.ofObjectAndTag 0 123).getTag ∧
     (TaggedPtr.ofObject 140729204299384).get = 140729204299384 ∧
     (TaggedPtr.ofObject 140729204299384).getTag = 0 ∧
     (TaggedPtr.ofObjectAndTag 140729204299384 456).get = 140729204299384 ∧
     (TaggedPtr.ofObjectAndTag 140729204299384 456).getTag = 456) :=
  ⟨⟨by norm_num, by norm_num⟩,
   taggedPtr_pointer_and_tag_independent (TaggedPtr.ofObjectAndTag 0 123)
     140729204299384 456 (by norm_num) (by norm_num)⟩

end EpEngine

/-! ## The DCP executor: stored status and privilege check -/

namespace Mcbp

open ENGINE_ERROR_CODE McbpStateMachineState

/-- The `switch` of the executor leaves the stored status and the histories of
privilege checks and engine calls as lines 23-48 left them. -/
theorem dcp_switch_frame (env : DcpEnv) (cookie : Cookie) :
    (dcp_buffer_acknowledgement_executor env cookie).aiostat =
      (dcp_buffer_acknowledgement_result env cookie).1.aiostat ∧
    (dcp_buffer_acknowledgement_executor env cookie).privilege_checks =
      (dcp_buffer_acknowledgement_result env cookie).1.privilege_checks ∧
    (dcp_buffer_acknowledgement_executor env cookie).engine_calls =
      (dcp_buffer_acknowledgement_result env cookie).1.engine_calls := by
  obtain ⟨k, r, h⟩ : ∃ k r, dcp_buffer_acknowledgement_result env cookie = (k, r) :=
    ⟨_, _, rfl⟩
  rw [h]
  rcases dcp_switch_cases env cookie k r h with ⟨-, he⟩ | ⟨-, he⟩ | ⟨-, he⟩ |
      ⟨-, -, -, he⟩ <;>
    simp [he]

/-- With a stored status other than `ENGINE_SUCCESS`, lines 23-48 only reset
the status and the flag and remap the stored status. -/
theorem dcp_result_stored (env : DcpEnv) (cookie : Cookie)
    (h : cookie.aiostat ≠ ENGINE_SUCCESS) :
    dcp_buffer_acknowledgement_result env cookie =
      ({ cookie with aiostat := ENGINE_SUCCESS, ewouldblock := false },
       env.remapErrorCode cookie.aiostat) := by
  simp [dcp_buffer_acknowledgement_result, h]

/-- With the stored status `ENGINE_SUCCESS`, lines 23-48 check the privilege
and call the engine only if the check succeeded. -/
theorem dcp_result_fresh (env : DcpEnv) (cookie : Cookie)
    (h : cookie.aiostat = ENGINE_SUCCESS) :
    dcp_buffer_acknowledgement_result env cookie =
      if env.haveDcpPrivilege = ENGINE_SUCCESS then
        ({ cookie with
            aiostat := ENGINE_SUCCESS, ewouldblock := false,
            privilege_checks := cookie.privilege_checks + 1,
            engine_calls := cookie.engine_calls ++
              [{ opaq := cookie.request.opaq, vbucket := cookie.request.vbucket,
                 buffer_bytes := ntohl_buffer_bytes cookie.request.body }] },
         env.remapErrorCode
           (env.buffer_acknowledgement cookie.request.opaq cookie.request.vbucket
             (ntohl_buffer_bytes cookie.request.body)))
      else
        ({ cookie with
            aiostat := ENGINE_SUCCESS, ewouldblock := false,
            privilege_checks := cookie.privilege_checks + 1 },
         env.remapErrorCode env.haveDcpPrivilege) := by
  by_cases hp : env.haveDcpPrivilege = ENGINE_SUCCESS <;>
    simp [dcp_buffer_acknowledgement_result, h, hp]

/-- C22: the executor consumes the stored asynchronous result exactly once.
After every invocation the stored status of the cookie is `ENGINE_SUCCESS`;
and if the status found on entry was not `ENGINE_SUCCESS`, neither the DCP
privilege check nor the engine's `buffer_acknowledgement` is invoked, the
result that reaches the `switch` is `remapErrorCode` of the stored status, and
the whole outcome is the same for all collaborators that remap alike. -/
theorem executor_consumes_stored_status (env : DcpEnv) (cookie : Cookie) :
    (dcp_buffer_acknowledgement_executor env cookie).aiostat = ENGINE_SUCCESS ∧
    (cookie.aiostat ≠ ENGINE_SUCCESS →
      (dcp_buffer_acknowledgement_executor env cookie).privilege_checks =
        cookie.privilege_checks ∧
      (dcp_buffer_acknowledgement_executor env cookie).engine_calls =
        cookie.engine_calls ∧
      (dcp_buffer_acknowledgement_result env cookie).2 =
        env.remapErrorCode cookie.aiostat ∧
      ∀ env2 : DcpEnv, env2.remapErrorCode = env.remapErrorCode →
        dcp_buffer_acknowledgement_executor env2 cookie =
          dcp_buffer_acknowledgement_executor env cookie) := by
  obtain ⟨ha, hp, he⟩ := dcp_switch_frame env cookie
  refine ⟨by rw [ha]; exact (dcp_result_frame env cookie).2.2.2.2.2, ?_⟩
  intro h
  rw [hp, he, dcp_result_stored env cookie h]
  refine ⟨rfl, rfl, rfl, ?_⟩
  intro env2 hremap
  simp only [dcp_buffer_acknowledgement_executor, dcp_result_stored env cookie h,
    dcp_result_stored env2 cookie h, hremap]

/-- Witness of C22: a cookie with the stored status `ENGINE_KEY_ENOENT`; no
privilege check, no engine call, one response carrying that code, and the
stored status reset. -/
theorem executor_consumes_stored_status_witness :
    (Cookie.example ENGINE_KEY_ENOENT true).aiostat ≠ ENGINE_SUCCESS ∧
    (dcp_buffer_acknowledgement_executor (DcpEnv.answering ENGINE_SUCCESS)
      (Cookie.example ENGINE_KEY_ENOENT true)).aiostat = ENGINE_SUCCESS ∧
    (dcp_buffer_acknowledgement_executor (DcpEnv.answering ENGINE_SUCCESS)
      (Cookie.example ENGINE_KEY_ENOENT true)).privilege_checks =
        (Cookie.example ENGINE_KEY_ENOENT true).privilege_checks ∧
    (dcp_buffer_acknowledgement_executor (DcpEnv.answering ENGINE_SUCCESS)
      (Cookie.example ENGINE_KEY_ENOENT true)).engine_calls =
        (Cookie.example ENGINE_KEY_ENOENT true).engine_calls ∧
    (dcp_buffer_acknowledgement_executor (DcpEnv.answering ENGINE_SUCCESS)
      (Cookie.example ENGINE_KEY_ENOENT true)).responses = [ENGINE_KEY_ENOENT] :=
  ⟨by decide,
   (executor_consumes_stored_status (DcpEnv.answering ENGINE_SUCCESS)
      (Cookie.example ENGINE_KEY_ENOENT true)).1,
   ((executor_consumes_stored_status (DcpEnv.answering ENGINE_SUCCESS)
      (Cookie.example ENGINE_KEY_ENOENT true)).2 (by decide)).1,
   ((executor_consumes_stored_status (DcpEnv.answering ENGINE_SUCCESS)
      (Cookie.example ENGINE_KEY_ENOENT true)).2 (by decide)).2.1,
   by decide⟩

/-- C24: for a cookie whose stored status is `ENGINE_SUCCESS`, the engine's
`dcp.buffer_acknowledgement` is invoked, once, if and only if
`mcbp::haveDcpPrivilege` returns `ENGINE_SUCCESS`; with any other code the
engine is not called and that code, remapped, is the result.  When the engine
is called it receives the `opaq` value and the vbucket of the request and the four
`buffer_bytes` read as a big-endian 32-bit number. -/
theorem engine_called_iff_privileged (env : DcpEnv) (cookie : Cookie)
    (h : cookie.aiostat = ENGINE_SUCCESS) :
    ((dcp_buffer_acknowledgement_executor env cookie).engine_calls.length =
        cookie.engine_calls.length + 1 ↔ env.haveDcpPrivilege = ENGINE_SUCCESS) ∧
    (env.haveDcpPrivilege = ENGINE_SUCCESS →
      (dcp_buffer_acknowledgement_executor env cookie).engine_calls =
        cookie.engine_calls ++
          [{ opaq := cookie.request.opaq, vbucket := cookie.request.vbucket,
             buffer_bytes := ntohl_buffer_bytes cookie.request.body }] ∧
      (dcp_buffer_acknowledgement_result env cookie).2 =
        env.remapErrorCode
          (env.buffer_acknowledgement cookie.request.opaq cookie.request.vbucket
            (ntohl_buffer_bytes cookie.request.body))) ∧
    (env.haveDcpPrivilege ≠ ENGINE_SUCCESS →
      (dcp_buffer_acknowledgement_executor env cookie).engine_calls =
        cookie.engine_calls ∧
      (dcp_buffer_acknowledgement_result env cookie).2 =
        env.remapErrorCode env.haveDcpPrivilege) ∧
    (∀ b0 b1 b2 b3 rest, b0 < 256 → b1 < 256 → b2 < 256 → b3 < 256 →
      cookie.request.body = b0 :: b1 :: b2 :: b3 :: rest →
      ntohl_buffer_bytes cookie.request.body =
        b0 * 2 ^ 24 + b1 * 2 ^ 16 + b2 * 2 ^ 8 + b3) := by
  obtain ⟨-, -, he⟩ := dcp_switch_frame env cookie
  rw [he, dcp_result_fresh env cookie h]
  refine ⟨?_, ?_, ?_, ?_⟩
  · by_cases hp : env.haveDcpPrivilege = ENGINE_SUCCESS <;> simp [hp]
  · intro hp; simp [hp]
  · intro hp; simp [hp]
  · intro b0 b1 b2 b3 rest h0 h1 h2 h3 hb
    simp [ntohl_buffer_bytes, hb, Nat.mod_eq_of_lt, h0, h1, h2, h3]

/-- Witness of C24: the example cookie, whose body is 01 02 03 04; the engine
is called with `opaq` 42, vbucket 7 and 0x01020304 bytes. -/
theorem engine_called_iff_privileged_witness :
    (Cookie.example ENGINE_SUCCESS false).aiostat = ENGINE_SUCCESS ∧
    (DcpEnv.answering ENGINE_SUCCESS).haveDcpPrivilege = ENGINE_SUCCESS ∧
    (dcp_buffer_acknowledgement_executor (DcpEnv.answering ENGINE_SUCCESS)
      (Cookie.example ENGINE_SUCCESS false)).engine_calls =
        (Cookie.example ENGINE_SUCCESS false).engine_calls ++
          [{ opaq := 42, vbucket := 7, buffer_bytes := 16909060 }] :=
  ⟨rfl, rfl,
   ((engine_called_iff_privileged (DcpEnv.answering ENGINE_SUCCESS)
      (Cookie.example ENGINE_SUCCESS false) rfl).2.1 rfl).1⟩

end Mcbp

/-! ## The create/remove context: value splitting and allocation failures -/

namespace Mcbp

/-- The first NUL of a string that has one is found at the length of the
NUL-free part before it. -/
theorem find_nul_append (pre rest : Bytes) (h : 0 ∉ pre) :
    find_nul (pre ++ 0 :: rest) = some pre.length := by
  induction pre with
  | nil => simp [find_nul, List.findIdx?_cons]
  | cons b pre ih =>
    have hb : b ≠ 0 := fun hb => h (by simp [hb])
    have hpre : 0 ∉ pre := fun hm => h (List.mem_cons_of_mem _ hm)
    have := ih hpre
    simp only [find_nul] at this ⊢
    simp [List.findIdx?_cons, hb, this]

/-- A string without NUL has no first NUL. -/
theorem find_nul_none (v : Bytes) (h : 0 ∉ v) : find_nul v = none := by
  induction v with
  | nil => simp [find_nul]
  | cons b v ih =>
    have hb : b ≠ 0 := fun hb => h (by simp [hb])
    have hv : 0 ∉ v := fun hm => h (List.mem_cons_of_mem _ hm)
    have := ih hv
    simp only [find_nul] at this ⊢
    simp [List.findIdx?_cons, hb, this]

/-- The C string at the start of a string is its NUL-free part up to the first
NUL. -/
theorem c_str_append (pre rest : Bytes) (h : 0 ∉ pre) :
    c_str (pre ++ 0 :: rest) = pre := by
  induction pre with
  | nil => simp [c_str]
  | cons b pre ih =>
    have hb : b ≠ 0 := fun hb => h (by simp [hb])
    have hpre : 0 ∉ pre := fun hm => h (List.mem_cons_of_mem _ hm)
    have := ih hpre
    simp only [c_str] at this ⊢
    simp [List.takeWhile_cons, hb, this]

/-- The C string of a string without NUL is the whole string. -/
theorem c_str_of_no_nul (v : Bytes) (h : 0 ∉ v) : c_str v = v := by
  induction v with
  | nil => simp [c_str]
  | cons b v ih =>
    have hb : b ≠ 0 := fun hb => h (by simp [hb])
    have hv : 0 ∉ v := fun hm => h (List.mem_cons_of_mem _ hm)
    have := ih hv
    simp only [c_str] at this ⊢
    simp [List.takeWhile_cons, hb, this]

namespace CreateRemoveBucketCommandContext

open ENGINE_ERROR_CODE State Outcome Opcode protocol_binary_response_status

/-- C23: the Create handler splits the request value at its first NUL byte.
The task it constructs has the request key as bucket name; its bucket type is
derived from the bytes before the first NUL (from the whole value when there
is no NUL); and its config is empty when the value contains no NUL and
otherwise the bytes after the first NUL up to, not including, the next NUL or
the end of the value. -/
theorem create_splits_value (env : Env) (c : CreateRemoveBucketCommandContext) :
    ∃ config type,
      create env c = submit env c (Task.McbpCreateBucketTask c.request.key config type) ∧
      (∀ pre rest, c.request.value = pre ++ 0 :: rest → 0 ∉ pre →
        type = env.module_to_bucket_type pre ∧
        config = rest.takeWhile (fun b => b != 0)) ∧
      (0 ∉ c.request.value →
        type = env.module_to_bucket_type c.request.value ∧ config = []) := by
  refine ⟨_, _, rfl, ?_, ?_⟩
  · intro pre rest hv hpre
    rw [hv, find_nul_append pre rest hpre, c_str_append pre rest hpre]
    simp [c_str_from, c_str]
  · intro hno
    rw [find_nul_none _ hno, c_str_of_no_nul _ hno]
    exact ⟨rfl, rfl⟩

/-- Witness of C23: the value "m", NUL, "c", NUL, "x" gives the module "m" and
the config "c"; the value "m" alone gives an empty config. -/
theorem create_splits_value_witness :
    (create Env.completing
        (fresh { opcode := CreateBucket, key := [98], value := [109, 0, 99, 0, 120] })).1.task =
      some (Task.McbpCreateBucketTask [98] [99] (Env.completing.module_to_bucket_type [109])) ∧
    (create Env.completing
        (fresh { opcode := CreateBucket, key := [98], value := [109] })).1.task =
      some (Task.McbpCreateBucketTask [98] [] (Env.completing.module_to_bucket_type [109])) := by
  obtain ⟨config, type, h, hsplit, -⟩ := create_splits_value Env.completing
    (fresh { opcode := CreateBucket, key := [98], value := [109, 0, 99, 0, 120] })
  obtain ⟨ht, hc⟩ := hsplit [109] [99, 0, 120] rfl (by decide)
  obtain ⟨config2, type2, h2, -, hno⟩ := create_splits_value Env.completing
    (fresh { opcode := CreateBucket, key := [98], value := [109] })
  obtain ⟨ht2, hc2⟩ := hno (by decide)
  refine ⟨?_, ?_⟩
  · rw [h, ht, hc]; rfl
  · rw [h2, ht2, hc2]; rfl

/-- How the Create handler can end: suspended, or with an exception and the
state as before. -/
theorem create_outcomes (env : Env) (c : CreateRemoveBucketCommandContext) :
    (create env c).2 = ret ENGINE_EWOULDBLOCK ∨
    ∃ e, (create env c).2 = thrown e ∧ (create env c).1.state = c.state := by
  obtain ⟨config, type, hc⟩ : ∃ config type,
      create env c = submit env c (Task.McbpCreateBucketTask c.request.key config type) :=
    ⟨_, _, rfl⟩
  rw [hc]
  rcases submit_cases env c (Task.McbpCreateBucketTask c.request.key config type) with
    ⟨e, _, h⟩ | ⟨e, _, _, h⟩ | ⟨e, _, _, _, h⟩ | ⟨_, _, _, h⟩ <;>
    simp [h]

/-- How the Remove handler can end: suspended, rejected, or with an exception
and the state as before. -/
theorem remove_outcomes (env : Env) (c : CreateRemoveBucketCommandContext) :
    (remove env c).2 = ret ENGINE_EWOULDBLOCK ∨ (remove env c).2 = ret ENGINE_EINVAL ∨
    ∃ e, (remove env c).2 = thrown e ∧ (remove env c).1.state = c.state := by
  unfold remove
  by_cases hp : (env.parse_config (c_str c.request.value)).1 ≠ 0
  · simp [hp]
  · simp only [hp, if_false]
    rcases submit_cases env c
        (Task.McbpDestroyBucketTask c.request.key
          (env.parse_config (c_str c.request.value)).2) with
      ⟨e, _, h⟩ | ⟨e, _, _, h⟩ | ⟨e, _, _, _, h⟩ | ⟨_, _, _, h⟩ <;>
      simp [h]

/-- What is caught as `ENGINE_ENOMEM` was `std::bad_alloc` or was
`ENGINE_ENOMEM` already. -/
theorem catch_bad_alloc_enomem (r : Outcome)
    (h : catch_bad_alloc r = ret ENGINE_ENOMEM) :
    r = thrown Exception.bad_alloc ∨ r = ret ENGINE_ENOMEM := by
  rcases catch_bad_alloc_cases r with ⟨h1, -⟩ | ⟨-, h2⟩
  · exact Or.inl h1
  · rw [h2] at h; exact Or.inr h

end CreateRemoveBucketCommandContext

end Mcbp

namespace Mcbp

namespace CreateRemoveBucketCommandContext

open ENGINE_ERROR_CODE State Outcome Opcode protocol_binary_response_status

/-- A `step()` call that starts in `Create` or `Remove` runs the handler of
that state first. -/
theorem step_reruns_handler (env : Env) (c : CreateRemoveBucketCommandContext) (n : Nat)
    (h : c.state = Create ∨ c.state = Remove) :
    ∃ c' r o, step env (n + 2) c = some (c', r) ∧
      c'.handlers = c.handlers ++ [(c.state, o)] := by
  rcases h with h | h
  · rw [step_Create env c _ h]
    exact ⟨_, _, (create env c).2, rfl, by simp [h]⟩
  · rw [step_Remove env c _ h]
    exact ⟨_, _, (remove env c).2, rfl, by simp [h]⟩

/-- The context after a `step()` that ran the Create handler, when the call
returned `ENGINE_ENOMEM`. -/
theorem enomem_after_create (env : Env) (c : CreateRemoveBucketCommandContext)
    (hs : c.state = Create)
    (h : catch_bad_alloc (create env c).2 = ret ENGINE_ENOMEM) :
    (create env c).2 = thrown Exception.bad_alloc ∧ (create env c).1.state = Create := by
  rcases create_outcomes env c with hb | ⟨e, he, hst⟩
  · rw [hb] at h; simp [catch_bad_alloc] at h
  · rcases catch_bad_alloc_enomem _ h with h1 | h1
    · exact ⟨h1, by rw [hst, hs]⟩
    · rw [he] at h1; cases h1

/-- The context after a `step()` that ran the Remove handler, when the call
returned `ENGINE_ENOMEM`. -/
theorem enomem_after_remove (env : Env) (c : CreateRemoveBucketCommandContext)
    (hs : c.state = Remove)
    (h : catch_bad_alloc (remove env c).2 = ret ENGINE_ENOMEM) :
    (remove env c).2 = thrown Exception.bad_alloc ∧ (remove env c).1.state = Remove := by
  rcases remove_outcomes env c with hb | hb | ⟨e, he, hst⟩
  · rw [hb] at h; simp [catch_bad_alloc] at h
  · rw [hb] at h; simp [catch_bad_alloc] at h
  · rcases catch_bad_alloc_enomem _ h with h1 | h1
    · exact ⟨h1, by rw [hst, hs]⟩
    · rw [he] at h1; cases h1

/-- C25: every `step()` call returns, and when it returns `ENGINE_ENOMEM` a
handler failed with `std::bad_alloc`: the last handler the call invoked is the
handler of the state the context is in afterwards, Create or Remove, and it
threw `std::bad_alloc`; the context was not advanced to `Done`, no response
packet was written, and a later `step()` runs that same handler first. -/
theorem step_enomem_keeps_state (env : Env) (c : CreateRemoveBucketCommandContext)
    (n : Nat) :
    ∃ c' r, step env (n + 2) c = some (c', r) ∧
      (r = ret ENGINE_ENOMEM →
        (c'.state = Create ∨ c'.state = Remove) ∧ c'.state ≠ Done ∧
        c'.packets = c.packets ∧
        c'.handlers.getLast? = some (c'.state, thrown Exception.bad_alloc) ∧
        ∀ (env2 : Env) (m : Nat), ∃ c2 r2 o, step env2 (m + 2) c' = some (c2, r2) ∧
          c2.handlers = c'.handlers ++ [(c'.state, o)]) := by
  have create_case : ∀ c0 : CreateRemoveBucketCommandContext, c0.state = Create →
      ∀ k : Nat, ∃ c' r, step env (k + 1) c0 = some (c', r) ∧
        (r = ret ENGINE_ENOMEM →
          (c'.state = Create ∨ c'.state = Remove) ∧ c'.state ≠ Done ∧
          c'.packets = c0.packets ∧
          c'.handlers.getLast? = some (c'.state, thrown Exception.bad_alloc) ∧
          ∀ (env2 : Env) (m : Nat), ∃ c2 r2 o, step env2 (m + 2) c' = some (c2, r2) ∧
            c2.handlers = c'.handlers ++ [(c'.state, o)]) := by
    intro c0 hs k
    rw [step_Create env c0 k hs]
    refine ⟨_, _, rfl, ?_⟩
    intro hr
    obtain ⟨hthrown, hst⟩ := enomem_after_create env c0 hs hr
    have hpk := (create_frame env c0).2.1
    refine ⟨Or.inl hst, by simp [hst], hpk, by simp [hst, hthrown], ?_⟩
    intro env2 m
    exact step_reruns_handler env2 _ m (Or.inl hst)
  have remove_case : ∀ c0 : CreateRemoveBucketCommandContext, c0.state = Remove →
      ∀ k : Nat, ∃ c' r, step env (k + 1) c0 = some (c', r) ∧
        (r = ret ENGINE_ENOMEM →
          (c'.state = Create ∨ c'.state = Remove) ∧ c'.state ≠ Done ∧
          c'.packets = c0.packets ∧
          c'.handlers.getLast? = some (c'.state, thrown Exception.bad_alloc) ∧
          ∀ (env2 : Env) (m : Nat), ∃ c2 r2 o, step env2 (m + 2) c' = some (c2, r2) ∧
            c2.handlers = c'.handlers ++ [(c'.state, o)]) := by
    intro c0 hs k
    rw [step_Remove env c0 k hs]
    refine ⟨_, _, rfl, ?_⟩
    intro hr
    obtain ⟨hthrown, hst⟩ := enomem_after_remove env c0 hs hr
    have hpk := (remove_frame env c0).2.1
    refine ⟨Or.inr hst, by simp [hst], hpk, by simp [hst, hthrown], ?_⟩
    intro env2 m
    exact step_reruns_handler env2 _ m (Or.inr hst)
  rcases hs : c.state with _ | _ | _ | _
  · rw [step_Initial env c n hs]
    by_cases hop : c.request.opcode = CreateBucket
    · exact create_case _ (by simp [hop]) n
    · exact remove_case _ (by simp [hop]) n
  · exact create_case c hs (n + 1)
  · exact remove_case c hs (n + 1)
  · rw [step_Done env c _ hs]
    exact ⟨_, _, rfl, by simp⟩

/-- Witness of C25: the example create flow with the construction of the task
failing; `step()` returns `ENGINE_ENOMEM`, the state is `Create`, nothing was
written, and the next `step()`, with collaborators that complete, runs the
Create handler again and suspends. -/
theorem step_enomem_keeps_state_witness :
    (step { Env.completing with make_shared := some Exception.bad_alloc } 2
        (fresh Request.createExample)).map
      (fun p => (p.1.state, p.1.packets, p.2)) =
        some (Create, [], ret ENGINE_ENOMEM) ∧
    ((step { Env.completing with make_shared := some Exception.bad_alloc } 2
        (fresh Request.createExample)).bind
      (fun p => step Env.completing 2 p.1)).map
      (fun q => (q.1.handlers.getLast?, q.2)) =
        some (some (Create, ret ENGINE_EWOULDBLOCK), ret ENGINE_EWOULDBLOCK) ∧
    ∃ c' r, step { Env.completing with make_shared := some Exception.bad_alloc } 2
        (fresh Request.createExample) = some (c', r) ∧
      (r = ret ENGINE_ENOMEM → c'.state ≠ Done) := by
  refine ⟨by decide, by decide, ?_⟩
  obtain ⟨c', r, h, himp⟩ := step_enomem_keeps_state
    { Env.completing with make_shared := some Exception.bad_alloc }
    (fresh Request.createExample) 0
  exact ⟨c', r, h, fun hr => (himp hr).2.1⟩

end CreateRemoveBucketCommandContext

end Mcbp

/-! ## The tap connections of the engine -/

namespace EpEngine

/-- Without a pending flush and without a `flush()` call, every
`shouldFlush()` returns false. -/
theorem run_not_pending (ops : List TapOp) :
    ∀ t : TapConnection, t.pendingFlush = false → (∀ op ∈ ops, op.isFlush = false) →
      ∀ r ∈ (t.run ops).2, r = false := by
  induction ops with
  | nil => intro t _ _ r hr; simp [TapConnection.run] at hr
  | cons op ops ih =>
    intro t hp hno r hr
    have hrest : ∀ op' ∈ ops, op'.isFlush = false :=
      fun op' h => hno op' (List.mem_cons_of_mem _ h)
    cases op with
    | addEvent key =>
      exact ih (t.addEvent key).1 (by simpa [TapConnection.addEvent] using hp) hrest r
        (by simpa [TapConnection.run] using hr)
    | next =>
      cases hq : t.queue with
      | nil => simp [TapConnection.run, TapConnection.next, hq] at hr
      | cons k rest =>
        simp only [TapConnection.run, TapConnection.next, hq] at hr
        exact ih _ (by simpa using hp) hrest r hr
    | flush => exact absurd (hno TapOp.flush (List.mem_cons_self _ _)) (by simp [TapOp.isFlush])
    | shouldFlush =>
      simp only [TapConnection.run, List.mem_cons] at hr
      rcases hr with hr | hr
      · rw [hr]; simpa [TapConnection.shouldFlush] using hp
      · exact ih t.shouldFlush.1 (by simp [TapConnection.shouldFlush]) hrest r hr

/-- With a pending flush and without a further `flush()` call, the first
`shouldFlush()` returns true and all later ones return false. -/
theorem run_pending (ops : List TapOp) :
    ∀ t : TapConnection, t.pendingFlush = true → (∀ op ∈ ops, op.isFlush = false) →
      (t.run ops).2 = [] ∨
      ((t.run ops).2.head? = some true ∧ ∀ r ∈ (t.run ops).2.tail, r = false) := by
  induction ops with
  | nil => intro t _ _; left; simp [TapConnection.run]
  | cons op ops ih =>
    intro t hp hno
    have hrest : ∀ op' ∈ ops, op'.isFlush = false :=
      fun op' h => hno op' (List.mem_cons_of_mem _ h)
    cases op with
    | addEvent key =>
      simpa [TapConnection.run] using
        ih (t.addEvent key).1 (by simpa [TapConnection.addEvent] using hp) hrest
    | next =>
      cases hq : t.queue with
      | nil => left; simp [TapConnection.run, TapConnection.next, hq]
      | cons k rest =>
        simp only [TapConnection.run, TapConnection.next, hq]
        exact ih _ (by simpa using hp) hrest
    | flush => exact absurd (hno TapOp.flush (List.mem_cons_self _ _)) (by simp [TapOp.isFlush])
    | shouldFlush =>
      right
      simp only [TapConnection.run, List.head?_cons, List.tail_cons]
      refine ⟨by simpa [TapConnection.shouldFlush] using hp, ?_⟩
      exact run_not_pending ops t.shouldFlush.1 (by simp [TapConnection.shouldFlush]) hrest

/-- C27: a flush is delivered exactly once.  `flush()` empties the queue and
sets `pendingFlush`; `shouldFlush()` returns the current `pendingFlush` and
resets it; neither `addEvent` nor `next` changes `pendingFlush`; so in every
sequence of calls after a `flush()` that holds no further `flush()`, the first
`shouldFlush()` returns true and every following one returns false. -/
theorem flush_delivered_once (t : TapConnection) (key : Bytes) (ops : List TapOp)
    (hno : ∀ op ∈ ops, op.isFlush = false) :
    t.flush.queue = [] ∧ t.flush.pendingFlush = true ∧
    t.shouldFlush.2 = t.pendingFlush ∧ t.shouldFlush.1.pendingFlush = false ∧
    (t.addEvent key).1.pendingFlush = t.pendingFlush ∧
    (∀ t' k, t.next = some (t', k) → t'.pendingFlush = t.pendingFlush) ∧
    ((t.flush.run ops).2 = [] ∨
      ((t.flush.run ops).2.head? = some true ∧
        ∀ r ∈ (t.flush.run ops).2.tail, r = false)) := by
  refine ⟨rfl, rfl, rfl, rfl, rfl, ?_, run_pending ops t.flush rfl hno⟩
  intro t' k h
  cases hq : t.queue with
  | nil => simp [TapConnection.next, hq] at h
  | cons k' rest =>
    simp only [TapConnection.next, hq, Option.some.injEq, Prod.mk.injEq] at h
    rw [← h.1]

/-- Witness of C27: after a flush, keys are added and fetched and
`shouldFlush()` is called three times; it returns true, false, false. -/
theorem flush_delivered_once_witness :
    (∀ op ∈ [TapOp.addEvent [107], TapOp.shouldFlush, TapOp.next, TapOp.shouldFlush,
        TapOp.addEvent [108], TapOp.shouldFlush], op.isFlush = false) ∧
    (((TapConnection.new [99]).flush.run
        [TapOp.addEvent [107], TapOp.shouldFlush, TapOp.next, TapOp.shouldFlush,
          TapOp.addEvent [108], TapOp.shouldFlush]).2 = [true, false, false]) ∧
    (((TapConnection.new [99]).flush.run
        [TapOp.addEvent [107], TapOp.shouldFlush, TapOp.next, TapOp.shouldFlush,
          TapOp.addEvent [108], TapOp.shouldFlush]).2 = [] ∨
      (((TapConnection.new [99]).flush.run
          [TapOp.addEvent [107], TapOp.shouldFlush, TapOp.next, TapOp.shouldFlush,
            TapOp.addEvent [108], TapOp.shouldFlush]).2.head? = some true ∧
        ∀ r ∈ ((TapConnection.new [99]).flush.run
          [TapOp.addEvent [107], TapOp.shouldFlush, TapOp.next, TapOp.shouldFlush,
            TapOp.addEvent [108], TapOp.shouldFlush]).2.tail, r = false)) :=
  ⟨by decide, by decide,
   (flush_delivered_once (TapConnection.new [99]) [107]
      [TapOp.addEvent [107], TapOp.shouldFlush, TapOp.next, TapOp.shouldFlush,
        TapOp.addEvent [108], TapOp.shouldFlush] (by decide)).2.2.2.2.2.2⟩

end EpEngine

namespace EpEngine

namespace EventuallyPersistentEngine

/-- The loop over the tap connections appends the key to every queue and
collects the cookies of the connections whose queue was empty. -/
theorem addEventToAll_eq (key : Bytes) (m : List (Nat × TapConnection)) :
    (addEventToAll key m).1 = m.map (fun p => (p.1, (p.2.addEvent key).1)) ∧
    (addEventToAll key m).2 = (m.filter (fun p => p.2.queue.isEmpty)).map Prod.fst := by
  induction m with
  | nil => simp [addEventToAll]
  | cons p m ih =>
    obtain ⟨cookie, connection⟩ := p
    obtain ⟨ih1, ih2⟩ := ih
    cases hq : connection.queue.isEmpty <;>
      simp [addEventToAll, ih1, ih2, TapConnection.addEvent, List.filter_cons, hq]

/-- In a map, whose keys are distinct, the cookie of an entry occurs once among
the cookies of the entries that satisfy `f` if the entry satisfies `f`, and not
at all otherwise. -/
theorem count_filter_keys (f : Nat × TapConnection → Bool)
    (m : List (Nat × TapConnection)) (hnodup : (m.map Prod.fst).Nodup)
    (cookie : Nat) (connection : TapConnection) (hmem : (cookie, connection) ∈ m) :
    ((m.filter f).map Prod.fst).count cookie = if f (cookie, connection) then 1 else 0 := by
  induction m with
  | nil => simp at hmem
  | cons p m ih =>
    simp only [List.map_cons, List.nodup_cons] at hnodup
    obtain ⟨hnot, hnd⟩ := hnodup
    have hzero : p.1 = cookie → ((m.filter f).map Prod.fst).count cookie = 0 := by
      intro hp
      apply List.count_eq_zero_of_not_mem
      intro hin
      apply hnot
      rw [hp]
      simp only [List.mem_map, List.mem_filter] at hin ⊢
      obtain ⟨q, ⟨hq, -⟩, hq1⟩ := hin
      exact ⟨q, hq, hq1⟩
    rcases List.mem_cons.mp hmem with heq | hin
    · subst heq
      have hz := hzero rfl
      cases hf : f (cookie, connection) <;> simp [List.filter_cons, hf, hz]
    · have hne : p.1 ≠ cookie := by
        intro hp
        apply hnot
        rw [hp]
        exact List.mem_map.mpr ⟨(cookie, connection), hin, rfl⟩
      have := ih hnd hin
      cases hf : f p <;> simp [List.filter_cons, hf, this, List.count_cons, hne]

/-- C28: `addMutationEvent` appends the key of the item to the queue of every
registered tap connection and passes to the ON_TAP_QUEUE callback, in map
order, the cookies of exactly the entries whose queue was empty before; with
the cookies of the map distinct, a connection whose queue was empty is
notified exactly once and a connection whose queue was not empty is not
notified.  The backend is not touched. -/
theorem addMutationEvent_notifies_empty_queues {σ : Type}
    (e : EventuallyPersistentEngine σ) (it : Item) :
    (e.addMutationEvent it).tapConnectionMap =
      e.tapConnectionMap.map
        (fun p => (p.1, { p.2 with queue := p.2.queue ++ [it.key] })) ∧
    (e.addMutationEvent it).tap_callbacks =
      e.tap_callbacks ++
        (e.tapConnectionMap.filter (fun p => p.2.queue.isEmpty)).map Prod.fst ∧
    (e.addMutationEvent it).backend = e.backend ∧
    ((e.tapConnectionMap.map Prod.fst).Nodup →
      ∀ cookie connection, (cookie, connection) ∈ e.tapConnectionMap →
        ((e.addMutationEvent it).tap_callbacks.count cookie =
          e.tap_callbacks.count cookie + if connection.queue = [] then 1 else 0)) := by
  obtain ⟨h1, h2⟩ := addEventToAll_eq it.key e.tapConnectionMap
  refine ⟨?_, ?_, rfl, ?_⟩
  · simp only [addMutationEvent, notifyTapQueues, h1]
    rfl
  · simp only [addMutationEvent, notifyTapQueues, h2]
  · intro hnodup cookie connection hmem
    simp only [addMutationEvent, notifyTapQueues, h2, List.count_append]
    rw [count_filter_keys _ _ hnodup cookie connection hmem]
    simp [List.isEmpty_iff]

/-- Witness of C28: two tap connections, the first with an empty queue and the
second with one key queued; a mutation of key "k" reaches both queues and only
the first cookie is notified. -/
theorem addMutationEvent_notifies_empty_queues_witness :
    (({ backend := [], tapConnectionMap :=
          [(7, TapConnection.new [97]),
           (9, { TapConnection.new [98] with queue := [[120]] })],
        tap_callbacks := [] } :
        EventuallyPersistentEngine (List (Bytes × Bytes))).addMutationEvent
      (Item.withData [107] 0 0 [1] 1)).tap_callbacks = [7] ∧
    (({ backend := [], tapConnectionMap :=
          [(7, TapConnection.new [97]),
           (9, { TapConnection.new [98] with queue := [[120]] })],
        tap_callbacks := [] } :
        EventuallyPersistentEngine (List (Bytes × Bytes))).addMutationEvent
      (Item.withData [107] 0 0 [1] 1)).tapConnectionMap.map (fun p => p.2.queue) =
        [[[107]], [[120], [107]]] := by
  have h := addMutationEvent_notifies_empty_queues
    ({ backend := [], tapConnectionMap :=
          [(7, TapConnection.new [97]),
           (9, { TapConnection.new [98] with queue := [[120]] })],
        tap_callbacks := [] } : EventuallyPersistentEngine (List (Bytes × Bytes)))
    (Item.withData [107] 0 0 [1] 1)
  refine ⟨?_, ?_⟩
  · rw [h.2.1]; decide
  · rw [h.1]; decide

end EventuallyPersistentEngine

end EpEngine

namespace EpEngine

namespace EventuallyPersistentEngine

open Mcbp.ENGINE_ERROR_CODE ENGINE_STORE_OPERATION

/-- The lookup `get` makes for `store`: it succeeds exactly when the backend
holds the first `nkey` bytes of the key. -/
theorem get_success_iff {σ : Type} (kv : KVStore σ) (e : EventuallyPersistentEngine σ)
    (key : Bytes) (nkey : Nat) :
    (get kv e key nkey).2 = ENGINE_SUCCESS ↔ kv.get e.backend (key.take nkey) ≠ none := by
  cases h : kv.get e.backend (key.take nkey) <;> simp [get, h]

/-- An item allocated for a key whose length is a multiple of 65536 has
`nkey = 0`, so `store` looks up the empty key: if the backend does not hold
the empty key, OPERATION_ADD stores and OPERATION_REPLACE does not, whether or
not the backend holds the key itself. -/
theorem store_with_wrapped_nkey {σ : Type} (kv : KVStore σ)
    (e : EventuallyPersistentEngine σ) (K : Bytes) (nb fl exp cas : Nat)
    (hlen : K.length = 65536) (habsent : kv.get e.backend [] = none) :
    (Item.allocated K 65536 nb fl exp).key = K ∧
    (Item.allocated K 65536 nb fl exp).nkey = 0 ∧
    (store kv e (Item.allocated K 65536 nb fl exp) cas OPERATION_ADD).2.2 =
      ENGINE_SUCCESS ∧
    (store kv e (Item.allocated K 65536 nb fl exp) cas OPERATION_REPLACE).2.2 =
      ENGINE_NOT_STORED := by
  have hkey : (Item.allocated K 65536 nb fl exp).key = K := by
    simp only [Item.allocated]
    exact List.take_of_length_le (by omega)
  have hnkey : (Item.allocated K 65536 nb fl exp).nkey = 0 := by
    simp only [Item.allocated]
    norm_num
  have hget : ¬ (get kv e (Item.allocated K 65536 nb fl exp).key
      (Item.allocated K 65536 nb fl exp).nkey).2 = ENGINE_SUCCESS := by
    rw [get_success_iff, hnkey, List.take_zero]
    simp [habsent]
  refine ⟨hkey, hnkey, ?_, ?_⟩
  · simp only [store, hget, if_false]
  · simp only [store, hget, if_false]

/-- C26, as stated, fails for a key of 65536 bytes, whose length the 16-bit
`nkey` holds as 0.  The backend holds the key, and yet OPERATION_ADD looks up
the empty key, finds nothing, writes and returns `ENGINE_SUCCESS`, while
OPERATION_REPLACE returns `ENGINE_NOT_STORED`. -/
theorem store_looks_up_truncated_key :
    (Item.allocated (List.replicate 65536 97) 65536 1 0 0).key = List.replicate 65536 97 ∧
    (Item.allocated (List.replicate 65536 97) 65536 1 0 0).nkey = 0 ∧
    KVStore.table.get [(List.replicate 65536 97, [1])] (List.replicate 65536 97) =
      some [1] ∧
    (store KVStore.table
      { backend := [(List.replicate 65536 97, [1])], tapConnectionMap := [],
        tap_callbacks := [] }
      (Item.allocated (List.replicate 65536 97) 65536 1 0 0) 5 OPERATION_ADD).2.2 =
        ENGINE_SUCCESS ∧
    (store KVStore.table
      { backend := [(List.replicate 65536 97, [1])], tapConnectionMap := [],
        tap_callbacks := [] }
      (Item.allocated (List.replicate 65536 97) 65536 1 0 0) 5 OPERATION_REPLACE).2.2 =
        ENGINE_NOT_STORED := by
  have hlen : (List.replicate 65536 97 : Bytes).length = 65536 := List.length_replicate _ _
  generalize (List.replicate 65536 97 : Bytes) = K at hlen ⊢
  have hne : K ≠ [] := by
    intro h
    rw [h] at hlen
    cases hlen
  have habsent : KVStore.table.get [(K, [1])] [] = none := by
    have hb : (([] : Bytes) == K) = false := by
      cases K with
      | nil => exact absurd rfl hne
      | cons b K => rfl
    simp only [KVStore.table, List.lookup, hb]
  have hpresent : KVStore.table.get [(K, [1])] K = some [1] := by
    simp [KVStore.table, List.lookup]
  obtain ⟨h1, h2, h3, h4⟩ := store_with_wrapped_nkey KVStore.table
    { backend := [(K, [1])], tapConnectionMap := [], tap_callbacks := [] } K 1 0 0 5 hlen
    habsent
  exact ⟨h1, h2, hpresent, h3, h4⟩

/-- C26, amended: for an item whose 16-bit `nkey` holds the length of its key
(every key shorter than 65536 bytes), `store` is conditional on the presence of
the key in the backend.  OPERATION_SET always writes the item, sets cas to 0
and returns `ENGINE_SUCCESS`; OPERATION_ADD writes and returns
`ENGINE_SUCCESS` if and only if the key is absent, OPERATION_REPLACE if and
only if it is present, and in the opposite case each returns
`ENGINE_NOT_STORED` and leaves the engine and cas as they were; every other
operation returns `ENGINE_ENOTSUP` and leaves the engine and cas as they were.
Every successful store writes the `nbytes` bytes of the item's data under its
key and then sends the tap mutation event. -/
theorem store_conditional_on_presence {σ : Type} (kv : KVStore σ)
    (e : EventuallyPersistentEngine σ) (it : Item) (cas : Nat)
    (hkey : it.nkey = it.key.length) :
    store kv e it cas OPERATION_SET =
      (addMutationEvent
        { e with backend := kv.set e.backend it.key (it.data.take it.nbytes) } it,
       0, ENGINE_SUCCESS) ∧
    ((store kv e it cas OPERATION_ADD).2.2 = ENGINE_SUCCESS ↔
      kv.get e.backend it.key = none) ∧
    (kv.get e.backend it.key = none →
      store kv e it cas OPERATION_ADD =
        (addMutationEvent
          { e with backend := kv.set e.backend it.key (it.data.take it.nbytes) } it,
         0, ENGINE_SUCCESS)) ∧
    (kv.get e.backend it.key ≠ none →
      store kv e it cas OPERATION_ADD = (e, cas, ENGINE_NOT_STORED)) ∧
    ((store kv e it cas OPERATION_REPLACE).2.2 = ENGINE_SUCCESS ↔
      kv.get e.backend it.key ≠ none) ∧
    (kv.get e.backend it.key ≠ none →
      store kv e it cas OPERATION_REPLACE =
        (addMutationEvent
          { e with backend := kv.set e.backend it.key (it.data.take it.nbytes) } it,
         0, ENGINE_SUCCESS)) ∧
    (kv.get e.backend it.key = none →
      store kv e it cas OPERATION_REPLACE = (e, cas, ENGINE_NOT_STORED)) ∧
    (∀ raw, store kv e it cas (ENGINE_STORE_OPERATION.other raw) =
      (e, cas, ENGINE_ENOTSUP)) := by
  have hg : (get kv e it.key it.nkey).2 = ENGINE_SUCCESS ↔
      kv.get e.backend it.key ≠ none := by
    have := get_success_iff kv e it.key it.nkey
    rwa [hkey, List.take_length, ← hkey] at this
  by_cases hpresent : kv.get e.backend it.key = none
  · have hno : ¬ (get kv e it.key it.nkey).2 = ENGINE_SUCCESS := by
      rw [hg]; simp [hpresent]
    simp [store, setAndNotify, hno, hpresent]
  · have hyes : (get kv e it.key it.nkey).2 = ENGINE_SUCCESS := hg.mpr hpresent
    simp [store, setAndNotify, hyes, hpresent]

/-- Witness of C26 amended: the table backend holding key "a"; an item with
key "a" is not added but is replaced, and an item with key "b" is added. -/
theorem store_conditional_on_presence_witness :
    (Item.withData [97] 0 0 [5] 1).nkey = (Item.withData [97] 0 0 [5] 1).key.length ∧
    store KVStore.table
        { backend := [([97], [1])], tapConnectionMap := [], tap_callbacks := [] }
        (Item.withData [97] 0 0 [5] 1) 9 OPERATION_ADD =
      ({ backend := [([97], [1])], tapConnectionMap := [], tap_callbacks := [] }, 9,
       ENGINE_NOT_STORED) ∧
    (store KVStore.table
        { backend := [([97], [1])], tapConnectionMap := [], tap_callbacks := [] }
        (Item.withData [97] 0 0 [5] 1) 9 OPERATION_REPLACE).2.2 =
      ENGINE_SUCCESS :=
  ⟨by decide,
   (store_conditional_on_presence KVStore.table
      { backend := [([97], [1])], tapConnectionMap := [], tap_callbacks := [] }
      (Item.withData [97] 0 0 [5] 1) 9 (by decide)).2.2.2.1 (by decide),
   (store_conditional_on_presence KVStore.table
      { backend := [([97], [1])], tapConnectionMap := [], tap_callbacks := [] }
      (Item.withData [97] 0 0 [5] 1) 9 (by decide)).2.2.2.2.1.2 (by decide)⟩

end EventuallyPersistentEngine

end EpEngine

/-! ## Event descriptors of the audit daemon -/

namespace Auditd

/-- A new entry placed in a map that does not hold its id is found under that
id. -/
theorem events_find_place (events : List (Nat × EventDescriptor)) (id : Nat)
    (entry : EventDescriptor) (h : events_find events id = none) :
    events_find (events_place events id entry) id = some entry := by
  induction events with
  | nil => simp [events_place, events_find]
  | cons p events ih =>
    obtain ⟨k, v⟩ := p
    have hk : k ≠ id := by
      intro hk
      simp [events_find, hk] at h
    have hrest : events_find events id = none := by
      simpa [events_find, hk] using h
    by_cases hlt : id < k
    · simp [events_place, hlt, events_find]
    · simp [events_place, hlt, events_find, hk, ih hrest]

/-- The outcomes of `initialize_event_data_structures`, path by path; on a
successful construction the map is searched for the id first, as
`std::map::insert` does. -/
theorem initialize_event_data_structures_cases (env : DescriptorEnv) (a : Audit) :
    (a.initialize_event_data_structures env none).2 = false ∧
    (a.initialize_event_data_structures env none).1.events = a.events ∧
    (∀ json what, env.new_EventDescriptor json = Constructed.bad_alloc what →
      (a.initialize_event_data_structures env (some json)).2 = false ∧
      (a.initialize_event_data_structures env (some json)).1.events = a.events) ∧
    (∀ json what, env.new_EventDescriptor json = Constructed.logic_error what →
      a.initialize_event_data_structures env (some json) =
        ({ a with logged := a.logged ++ [LogLine.error AuditErrorCode.JSON_KEY_ERROR what] },
         true)) ∧
    (∀ json d, env.new_EventDescriptor json = Constructed.descriptor d →
      (a.initialize_event_data_structures env (some json)).2 = true ∧
      (events_find a.events d.id = none →
        events_find (a.initialize_event_data_structures env (some json)).1.events d.id =
          some (if env.is_event_disabled d.id then { d with enabled := false } else d) ∧
        (a.initialize_event_data_structures env (some json)).1.events =
          events_place a.events d.id
            (if env.is_event_disabled d.id then { d with enabled := false } else d)) ∧
      (∀ old, events_find a.events d.id = some old →
        (a.initialize_event_data_structures env (some json)).1.events = a.events)) := by
  refine ⟨rfl, rfl, ?_, ?_, ?_⟩
  · intro json what h
    simp [Audit.initialize_event_data_structures, h, Audit.log_error]
  · intro json what h
    simp [Audit.initialize_event_data_structures, h, Audit.log_error]
  · intro json d h
    have hid : (if env.is_event_disabled d.id then { d with enabled := false } else d).id
        = d.id := by
      split <;> rfl
    refine ⟨by simp [Audit.initialize_event_data_structures, h], ?_, ?_⟩
    · intro hnone
      have hev : (a.initialize_event_data_structures env (some json)).1.events =
          events_place a.events d.id
            (if env.is_event_disabled d.id then { d with enabled := false } else d) := by
        simp only [Audit.initialize_event_data_structures, h, hid, events_insert, hnone]
      refine ⟨?_, hev⟩
      rw [hev]
      exact events_find_place _ _ _ hnone
    · intro old hold
      simp only [Audit.initialize_event_data_structures, h, hid, events_insert, hold]

/-- In a map that agrees with the configuration, the entry found under an id
the configuration lists as disabled is disabled. -/
theorem events_find_respects (env : DescriptorEnv) (events : List (Nat × EventDescriptor))
    (h : events_respect_config env events = true) (id : Nat) (entry : EventDescriptor)
    (hfind : events_find events id = some entry) (hdis : env.is_event_disabled id = true) :
    entry.enabled = false := by
  induction events with
  | nil => simp [events_find] at hfind
  | cons p events ih =>
    obtain ⟨k, v⟩ := p
    simp only [events_respect_config, List.all_cons, Bool.and_eq_true, Bool.or_eq_true,
      Bool.not_eq_true'] at h
    obtain ⟨hp, hrest⟩ := h
    by_cases hk : k = id
    · simp only [events_find, hk, if_true, Option.some.injEq] at hfind
      subst hfind
      rw [hk, hdis] at hp
      simpa using hp
    · simp only [events_find, hk, if_false] at hfind
      exact ih (by simpa [events_respect_config] using hrest) hfind

/-- Placing an entry that is disabled if its id is listed keeps the map in
agreement with the configuration. -/
theorem events_place_respects (env : DescriptorEnv) (events : List (Nat × EventDescriptor))
    (h : events_respect_config env events = true) (id : Nat) (entry : EventDescriptor)
    (hentry : env.is_event_disabled id = true → entry.enabled = false) :
    events_respect_config env (events_place events id entry) = true := by
  have hnew : (!env.is_event_disabled id || !entry.enabled) = true := by
    cases hd : env.is_event_disabled id
    · rfl
    · simp [hentry hd]
  induction events with
  | nil => simp [events_place, events_respect_config, hnew]
  | cons p events ih =>
    obtain ⟨k, v⟩ := p
    simp only [events_respect_config, List.all_cons, Bool.and_eq_true] at h
    obtain ⟨hp, hrest⟩ := h
    by_cases hlt : id < k
    · simp only [events_place, hlt, if_true, events_respect_config, List.all_cons,
        Bool.and_eq_true]
      exact ⟨hnew, hp, hrest⟩
    · simp only [events_place, hlt, if_false, events_respect_config, List.all_cons,
        Bool.and_eq_true]
      exact ⟨hp, by simpa [events_respect_config] using ih (by simpa [events_respect_config] using hrest)⟩

/-- Every call of `initialize_event_data_structures` keeps the events map in
agreement with the configuration. -/
theorem initialize_respects (env : DescriptorEnv) (a : Audit)
    (h : events_respect_config env a.events = true) (event_ptr : Option cJSON) :
    events_respect_config env (a.initialize_event_data_structures env event_ptr).1.events =
      true := by
  obtain ⟨-, hnull, hbad, hlogic, hok⟩ := initialize_event_data_structures_cases env a
  cases event_ptr with
  | none => rw [hnull]; exact h
  | some json =>
    cases hc : env.new_EventDescriptor json with
    | bad_alloc what => rw [(hbad json what hc).2]; exact h
    | logic_error what => rw [hlogic json what hc]; exact h
    | descriptor d =>
      obtain ⟨-, hnew, hold⟩ := hok json d hc
      cases hf : events_find a.events d.id with
      | some old => rw [hold old hf]; exact h
      | none =>
        rw [(hnew hf).2]
        apply events_place_respects env a.events h
        intro hdis
        simp [hdis]

/-- The loop over the events of a descriptor file keeps the events map in
agreement with the configuration. -/
theorem initialize_events_respects (env : DescriptorEnv) (events : List cJSON) :
    ∀ a : Audit, events_respect_config env a.events = true →
      events_respect_config env (a.initialize_events env events).1.events = true := by
  induction events with
  | nil => intro a h; exact h
  | cons event_ptr next ih =>
    intro a h
    have h1 := initialize_respects env a h (some event_ptr)
    simp only [Audit.initialize_events]
    split
    · exact ih _ h1
    · exact h1

/-- C29: `initialize_event_data_structures` is called while a descriptor file
is processed, with the events map cleared first and filled by the earlier
calls, and in that state the map agrees with the configuration.  In every
state whose map agrees with the configuration the call returns false for a
null event pointer and when the construction of the `EventDescriptor` fails
with an allocation failure; when the construction fails with a `logic_error`
it logs JSON_KEY_ERROR, leaves the events map unchanged and still returns
true; on successful construction it returns true and the events map contains
an entry for the id of the descriptor, disabled if the configuration lists
that id as disabled; and the map agrees with the configuration afterwards. -/
theorem initialize_event_data_structures_contract (env : DescriptorEnv) (a0 a : Audit)
    (earlier : List cJSON) :
    events_respect_config env (a0.while_processing env earlier).events = true ∧
    (events_respect_config env a.events = true →
      (a.initialize_event_data_structures env none).2 = false ∧
      (∀ json what, env.new_EventDescriptor json = Constructed.bad_alloc what →
        (a.initialize_event_data_structures env (some json)).2 = false) ∧
      (∀ json what, env.new_EventDescriptor json = Constructed.logic_error what →
        a.initialize_event_data_structures env (some json) =
          ({ a with
              logged := a.logged ++ [LogLine.error AuditErrorCode.JSON_KEY_ERROR what] },
           true)) ∧
      (∀ json d, env.new_EventDescriptor json = Constructed.descriptor d →
        (a.initialize_event_data_structures env (some json)).2 = true ∧
        ∃ entry,
          events_find (a.initialize_event_data_structures env (some json)).1.events d.id =
            some entry ∧
          (env.is_event_disabled d.id = true → entry.enabled = false)) ∧
      (∀ event_ptr,
        events_respect_config env
          (a.initialize_event_data_structures env event_ptr).1.events = true)) := by
  refine ⟨?_, ?_⟩
  · exact initialize_events_respects env earlier a0.clear_events_map rfl
  · intro hinv
    obtain ⟨hnull, -, hbad, hlogic, hok⟩ := initialize_event_data_structures_cases env a
    refine ⟨hnull, fun json what h => (hbad json what h).1, hlogic, ?_,
      initialize_respects env a hinv⟩
    intro json d h
    obtain ⟨htrue, hnew, hold⟩ := hok json d h
    refine ⟨htrue, ?_⟩
    cases hf : events_find a.events d.id with
    | none =>
      refine ⟨_, (hnew hf).1, ?_⟩
      intro hdis
      simp [hdis]
    | some old =>
      refine ⟨old, by rw [hold old hf]; exact hf, ?_⟩
      intro hdis
      exact events_find_respects env a.events hinv d.id old hf hdis

/-- Witness of C29: a descriptor file with the events 3, 5 and 3 again, the
configuration listing id 3 as disabled, processed from a state that held an
enabled entry for id 3 before the map was cleared.  When the second
descriptor with id 3 is reached, the call returns true and the entry for id 3
in the map is disabled. -/
theorem initialize_event_data_structures_contract_witness :
    events_respect_config
      { new_EventDescriptor := fun j => Constructed.descriptor (EventDescriptor.example j true),
        is_event_disabled := fun id => decide (id = 3) }
      (Audit.while_processing
        { new_EventDescriptor := fun j =>
            Constructed.descriptor (EventDescriptor.example j true),
          is_event_disabled := fun id => decide (id = 3) }
        { Audit.fresh 2 with events := [(3, EventDescriptor.example 3 true)] }
        [3, 5]).events = true ∧
    (Audit.initialize_event_data_structures
      { new_EventDescriptor := fun j => Constructed.descriptor (EventDescriptor.example j true),
        is_event_disabled := fun id => decide (id = 3) }
      (Audit.while_processing
        { new_EventDescriptor := fun j =>
            Constructed.descriptor (EventDescriptor.example j true),
          is_event_disabled := fun id => decide (id = 3) }
        { Audit.fresh 2 with events := [(3, EventDescriptor.example 3 true)] }
        [3, 5])
      (some 3)).2 = true ∧
    ∃ entry,
      events_find
        (Audit.initialize_event_data_structures
          { new_EventDescriptor := fun j =>
              Constructed.descriptor (EventDescriptor.example j true),
            is_event_disabled := fun id => decide (id = 3) }
          (Audit.while_processing
            { new_EventDescriptor := fun j =>
                Constructed.descriptor (EventDescriptor.example j true),
              is_event_disabled := fun id => decide (id = 3) }
            { Audit.fresh 2 with events := [(3, EventDescriptor.example 3 true)] }
            [3, 5])
          (some 3)).1.events 3 = some entry ∧
      entry.enabled = false := by
  have h := initialize_event_data_structures_contract
    { new_EventDescriptor := fun j => Constructed.descriptor (EventDescriptor.example j true),
      is_event_disabled := fun id => decide (id = 3) }
    { Audit.fresh 2 with events := [(3, EventDescriptor.example 3 true)] }
    (Audit.while_processing
      { new_EventDescriptor := fun j => Constructed.descriptor (EventDescriptor.example j true),
        is_event_disabled := fun id => decide (id = 3) }
      { Audit.fresh 2 with events := [(3, EventDescriptor.example 3 true)] }
      [3, 5])
    [3, 5]
  obtain ⟨hinv, hclaim⟩ := h
  obtain ⟨-, -, -, hok, -⟩ := hclaim hinv
  obtain ⟨htrue, entry, hfind, hdis⟩ := hok 3 (EventDescriptor.example 3 true) rfl
  exact ⟨hinv, htrue, entry, hfind, hdis (by decide)⟩

end Auditd

/-! ## The task queue of the worker pool -/

namespace Scheduler

end Scheduler
